import Mathlib

/-!
# Race simulator (`simulator.js`): a shallow embedding

The program replays a race file line by line against an HTTP endpoint.
The embedding follows the script top to bottom:

* option validation (lines 76-97) is `validate`, the file load and the rest
  of the script is `main`;
* one iteration of the `async.eachOfSeries` loop (lines 124-185) is
  `processLine`: `pauseBefore` is steps 1-2 (lookback and wait), `dispatch`
  is step 3 (parse, counter lookup, injection, post);
* the `client.post` callback (lines 173-181) is `handleResponse`;
* the completion callback (lines 186-194) is `finalCallback`.

Responses are asynchronous: the loop calls `callback(null)` right after
`client.post`, so a response can only be handled while the loop is suspended
in a timer, or after the loop is over.  A run is therefore driven by a
schedule that says which responses arrive in the gap before each line and
which arrive after the completion callback.

The runtime is not part of the repository: `JSON.parse` and the path check of
`client.post` are parameters of the model (`Runtime`), the error argument of
the `client.post` callback follows the restify JSON client, and `Date`
parsing is modelled for the `HH:MM:SS` shape only (the wait of a line never
changes what the loop does next, only when).
-/

namespace RaceSimulator

/-! ## Strings -/

/-- Core of `String.prototype.split(sep)` for a one-character separator. The
result is never empty: the empty string splits into one empty field. -/
def splitChars (sep : Char) : List Char → List (List Char)
  | [] => [[]]
  | c :: cs =>
    if c = sep then [] :: splitChars sep cs
    else
      match splitChars sep cs with
      | [] => [[c]]
      | f :: fs => (c :: f) :: fs

/-- The call `s.split(sep)`. -/
def split (s : String) (sep : Char) : List String :=
  (splitChars sep s.data).map String.mk

/-- JavaScript truthiness of a possibly undefined string: undefined and the
empty string are falsy. -/
def truthy : Option String → Bool
  | none => false
  | some s => s != ""

/-! ## JSON values -/

/-- Values produced by `JSON.parse`. Numbers are carried, never computed with;
they are modelled as integers. An object is its list of own properties in
insertion order. -/
inductive JSONValue where
  | null : JSONValue
  | bool (b : Bool) : JSONValue
  | number (n : Int) : JSONValue
  | string (s : String) : JSONValue
  | array (xs : List JSONValue) : JSONValue
  | object (props : List (String × JSONValue)) : JSONValue
  deriving Repr

/-- Property read `o[k]` on a property list: the first property named `k`. -/
def getProp : List (String × JSONValue) → String → Option JSONValue
  | [], _ => none
  | (k, v) :: rest, key => if k = key then some v else getProp rest key

/-- Property write `o[k] = v` on a property list: an existing property keeps
its place and takes the new value, a new property goes to the end. -/
def setProp : List (String × JSONValue) → String → JSONValue → List (String × JSONValue)
  | [], key, v => [(key, v)]
  | (k, w) :: rest, key, v =>
    if k = key then (k, v) :: rest else (k, w) :: setProp rest key v

/-! ## Dates -/

/-- The constant `dummyDate` (line 89). -/
def dummyDate : String := "01/01/2000 "

/-- Value of a decimal digit. -/
def digit (c : Char) : Option Nat :=
  if '0' ≤ c ∧ c ≤ '9' then some (c.toNat - '0'.toNat) else none

/-- Milliseconds since midnight of a well-formed `HH:MM:SS` clock time, and
`none` for any other text. -/
def clockMillis : List Char → Option Int
  | [h1, h2, ':', m1, m2, ':', s1, s2] =>
    match digit h1, digit h2, digit m1, digit m2, digit s1, digit s2 with
    | some a, some b, some c, some d, some e, some f =>
      let h := 10 * a + b
      let m := 10 * c + d
      let s := 10 * e + f
      if h < 24 ∧ m < 60 ∧ s < 60 then some (((h * 60 + m) * 60 + s) * 1000 : Nat) else none
    | _, _, _, _, _, _ => none
  | _ => none

/-- Strip a prefix from a character list. -/
def dropPrefix : List Char → List Char → Option (List Char)
  | [], cs => some cs
  | _ :: _, [] => none
  | p :: ps, c :: cs => if p = c then dropPrefix ps cs else none

/-- The numeric value of `new Date(s)` for `s` of the form
`dummyDate + "HH:MM:SS"`, in milliseconds counted from local midnight of the
dummy date (the epoch offset of that midnight is the same for every date the
program builds and cancels in `d1 - d2`). Other shapes are outside the model:
`none` then says that the model does not determine the value (the real parser
reads more shapes than this one and gives `NaN` for the rest). -/
def dateMillis (s : String) : Option Int :=
  match dropPrefix dummyDate.data s.data with
  | some rest => clockMillis rest
  | none => none

/-- Subtraction of two date values, undetermined as soon as one of them is. -/
def dateDiff : Option Int → Option Int → Option Int
  | some a, some b => some (a - b)
  | _, _ => none

/-! ## Steps 1 and 2 of an iteration: lookback and wait -/

/-- What step 2 does before it lets step 3 run. -/
inductive Pause where
  /-- No timer is set: `c(null)` is called at once. -/
  | immediate : Pause
  /-- A timer is set by `setTimeout(..., wait)` with the wait as computed, not
  clamped; `none` is a wait the model does not determine. -/
  | timeout (wait : Option Int) : Pause
  deriving DecidableEq, Repr

/-- Step 1 (lines 130-139): `t2`, the first field of the previous line, left
undefined for index 0. -/
def previousTimestamp (lines : List String) (index : Nat) : Option String :=
  if index > 0 then
    match lines[index - 1]? with
    | some nextLine => (split nextLine ';').head?
    | none => none
  else none

/-- Steps 1-2 (lines 130-152) for the line at `index`. -/
def pauseBefore (lines : List String) (index : Nat) : Pause :=
  match lines[index]? with
  | none => Pause.immediate
  | some currentLine =>
    match (split currentLine ';').head?, previousTimestamp lines index with
    | some t1, some t2 =>
      if truthy (some t2) then
        let d1 := dateMillis (dummyDate ++ t1)
        let d2 := dateMillis (dummyDate ++ t2)
        Pause.timeout (dateDiff d1 d2)
      else Pause.immediate
    | _, _ => Pause.immediate

/-! ## What the model takes from the runtime -/

/-- The two calls into the runtime whose outcome decides the control flow of an
iteration. `parse` is `JSON.parse`, with `none` for a thrown `SyntaxError`.
`accepts` tells whether `client.post` takes the request path; on a path it
does not take (one with a space, say) the call throws before anything is
sent. The general theorems hold for every such runtime. -/
structure Runtime where
  parse : String → Option JSONValue
  accepts : String → Bool

/-! ## Configuration (lines 15-97) -/

/-- The object returned by `commandLineArgs(optionDefinitions)`; an option
that was not given is undefined. -/
structure Options where
  help : Bool
  racefile : Option String
  raceid : Option Int
  demozone : Option String
  verbose : Bool

/-- The constant `validDemozones` (line 65). -/
def validDemozones : List String :=
  ["MADRID", "BARCELONA", "LISBON", "PARIS", "AMSTERDAM", "MILAN", "BERLIN", "MUNICH"]

/-- JavaScript truthiness of a possibly undefined number: undefined and zero
are falsy. -/
def truthyNumber : Option Int → Bool
  | none => false
  | some n => n != 0

/-- The constants `raceDataFile`, `raceId` and `demozone` (lines 86-88). -/
structure Context where
  raceDataFile : String
  raceId : Int
  demozone : String

/-- Lines 76-97: the exit code of `process.exit`, or the run's constants. -/
def validate (options : Options) : Except Int Context :=
  if options.help then Except.error 0
  else if !truthy options.racefile || !truthyNumber options.raceid || !truthy options.demozone then
    Except.error (-1)
  else
    match options.racefile, options.raceid, options.demozone with
    | some raceDataFile, some raceId, some demozone =>
      if validDemozones.contains demozone then Except.ok ⟨raceDataFile, raceId, demozone⟩
      else Except.error (-1)
    | _, _, _ => Except.error (-1)

/-! ## Program state -/

/-- How the process stands. -/
inductive Status where
  | running : Status
  /-- The call `process.exit(code)`. -/
  | exited (code : Int) : Status
  /-- An uncaught exception; node ends the process with status 1. -/
  | crashed : Status
  deriving DecidableEq, Repr

/-- An element of the `counter` array. -/
structure Entry where
  urn : String
  messages : Nat
  deriving DecidableEq, Repr

/-- One call of `client.post`: the path, the body, and what its callback
closes over: the `urn` and `e`, the counter element found for it, kept as
its position in `counter` (elements are only ever pushed). -/
structure Request where
  uri : String
  body : JSONValue
  urn : String
  e : Option Nat

/-- What comes back for a request: the request (by order of sending) it
answers, whether the exchange failed at transport level (connection refused,
timeout, no usable response), and otherwise the HTTP status of the response. -/
structure Response where
  request : Nat
  transport : Bool
  statusCode : Nat

/-- Whether the `client.post` callback is called with a non-null `err`: the
restify JSON client passes an error for a transport failure and also for
every response whose HTTP status is 400 or more. -/
def Response.err (r : Response) : Bool :=
  r.transport || decide (400 ≤ r.statusCode)

/-- State of the process. -/
structure State where
  /-- Whether `fs.existsSync` was called. -/
  fileChecked : Bool
  /-- Whether `fs.readFileSync` was called. -/
  fileRead : Bool
  lines : List String
  /-- Index of the line the loop handles next. -/
  index : Nat
  counter : List Entry
  /-- The `client.post` calls made so far, oldest first. -/
  requests : List Request
  /-- What step 2 did for each line handled so far. -/
  waits : List Pause
  status : Status
  /-- The lines of the final report, once printed. -/
  report : Option (List Entry)

/-- State at the top of the script. -/
def initial : State :=
  { fileChecked := false, fileRead := false, lines := [], index := 0, counter := [],
    requests := [], waits := [], status := Status.running, report := none }

/-- State once the race file is read and split (line 107). -/
def loaded (lines : List String) : State :=
  { initial with fileChecked := true, fileRead := true, lines := lines }

/-- Exit status of the process; a process that is still running ends with 0
once nothing is pending. -/
def exitCode (st : State) : Int :=
  match st.status with
  | Status.running => 0
  | Status.exited code => code
  | Status.crashed => 1

/-! ## Step 3 of an iteration: dispatch (lines 153-184) -/

/-- The call `_.find(counter, ...)` for a `urn`: the position of the first
element with that `urn`. -/
def find : List Entry → String → Option Nat
  | [], _ => none
  | e :: rest, urn => if e.urn = urn then some 0 else (find rest urn).map (· + 1)

/-- Lines 165-166. Writing a property of a primitive or of null throws in
strict mode (`none`); a property written on an array is not part of what is
serialised. -/
def inject (ctx : Context) : JSONValue → Option JSONValue
  | JSONValue.object props =>
    some (JSONValue.object
      (setProp (setProp props "raceId" (JSONValue.number ctx.raceId)) "demozone"
        (JSONValue.string ctx.demozone)))
  | JSONValue.array xs => some (JSONValue.array xs)
  | _ => none

/-- Lines 171-172. -/
def uriFor (eventType urn : String) : String :=
  (if eventType = "data" then "/iot/send/data/" else "/iot/send/alert/") ++ urn

/-- An uncaught exception. -/
def crash (st : State) : State := { st with status := Status.crashed }

/-- Lines 159-163: a target id seen for the first time gets an element with
count zero, pushed at the end of `counter`. -/
def register (counter : List Entry) (urn : String) : List Entry :=
  if (find counter urn).isNone then counter ++ [{ urn := urn, messages := 0 }] else counter

/-- Step 3 (lines 153-184) for one line. A line with fewer than four fields
has `data[3]` undefined, on which `JSON.parse` throws. The call `client.post`
throws on a path it does not accept, after the counter lookup and before
`callback(null)`. -/
def dispatch (ctx : Context) (rt : Runtime) (st : State)
    (line : String) : State :=
  match split line ';' with
  | _ :: eventType :: urn :: payload :: _ =>
    match rt.parse payload with
    | none => crash st
    | some payloadJSON =>
      let counter := register st.counter urn
      let e := find counter urn
      match inject ctx payloadJSON with
      | none => crash { st with counter := counter }
      | some body =>
        let uri := uriFor eventType urn
        if rt.accepts uri then
          { st with
            counter := counter
            requests := st.requests ++ [{ uri := uri, body := body, urn := urn, e := e }]
            index := st.index + 1 }
        else crash { st with counter := counter }
  | _ => crash st

/-- One iteration of the loop (lines 124-185) on the line at `st.index`. -/
def processLine (ctx : Context) (rt : Runtime) (st : State) : State :=
  if st.status = Status.running then
    match st.lines[st.index]? with
    | none => st
    | some line =>
      dispatch ctx rt { st with waits := st.waits ++ [pauseBefore st.lines st.index] } line
  else st

/-! ## The response callback (lines 173-181) -/

/-- The statement `e.messages++` on the element at position `i`. -/
def bump : List Entry → Nat → List Entry
  | [], _ => []
  | e :: rest, 0 => { e with messages := e.messages + 1 } :: rest
  | e :: rest, i + 1 => e :: bump rest i

/-- The callback of `client.post` (lines 173-181). -/
def handleResponse (st : State) (r : Response) : State :=
  if st.status = Status.running then
    match st.requests[r.request]? with
    | none => st
    | some req =>
      if r.err then { st with status := Status.exited (-1) }
      else
        match req.e with
        | some i => { st with counter := bump st.counter i }
        | none => crash st
  else st

/-! ## The loop and the whole program -/

/-- The completion callback (lines 186-194): print the counters. -/
def finalCallback (st : State) : State :=
  if st.status = Status.running then { st with report := some st.counter } else st

/-- The iterations of `async.eachOfSeries` over the `n` lines still to do.
`gaps` lists, line by line, the responses whose callbacks run before that
line is dispatched, that is while the loop waits in the timer of that line.
A response can only answer a request already made. Before a line that sets
no timer nothing can arrive in a real run; the model accepts every schedule,
the real ones included. -/
def iterate (ctx : Context) (rt : Runtime) :
    Nat → List (List Response) → State → State
  | 0, _, st => st
  | n + 1, gaps, st =>
    iterate ctx rt n gaps.tail (processLine ctx rt ((gaps.headD []).foldl handleResponse st))

/-- The loop (lines 124-194): the iterations, then the completion callback,
which runs in the same turn as the last dispatch. -/
def replay (ctx : Context) (rt : Runtime) (n : Nat)
    (gaps : List (List Response)) (st : State) : State :=
  finalCallback (iterate ctx rt n gaps st)

/-- The file system: the contents of each path that exists. -/
abbrev FileSystem := String → Option String

/-- The whole script. `late` lists the responses that arrive after the
completion callback. -/
def main (options : Options) (fs : FileSystem) (rt : Runtime)
    (gaps : List (List Response)) (late : List Response) : State :=
  match validate options with
  | Except.error code => { initial with status := Status.exited code }
  | Except.ok ctx =>
    match fs ctx.raceDataFile with
    | none => { initial with fileChecked := true, status := Status.exited (-1) }
    | some contents =>
      let lines := split contents '\n'
      late.foldl handleResponse (replay ctx rt lines.length gaps (loaded lines))

/-! ## A reader for a subset of JSON

Used to run the model on concrete race files: objects, arrays, strings
without escapes, integers, `true`, `false`, `null`. Text outside the subset
is rejected. -/

/-- Skip JSON white space. -/
def skipWs : List Char → List Char
  | [] => []
  | c :: cs => if c = ' ' ∨ c = '\n' ∨ c = '\t' ∨ c = '\r' then skipWs cs else c :: cs

/-- Read a string body up to the closing quote. -/
def takeString : List Char → List Char → Option (String × List Char)
  | [], _ => none
  | c :: rest, acc =>
    if c = '"' then some (String.mk acc.reverse, rest)
    else if c = '\\' then none
    else takeString rest (c :: acc)

/-- Read further digits of a natural number. -/
def takeDigits : List Char → Nat → Nat × List Char
  | [], n => (n, [])
  | c :: rest, n =>
    match digit c with
    | some d => takeDigits rest (10 * n + d)
    | none => (n, c :: rest)

/-- Read a natural number without a leading zero. -/
def takeNat : List Char → Option (Nat × List Char)
  | [] => none
  | c :: rest =>
    match digit c with
    | none => none
    | some 0 =>
      match rest with
      | [] => some (0, [])
      | c2 :: rest2 => if (digit c2).isSome then none else some (0, c2 :: rest2)
    | some d => some (takeDigits rest d)

mutual
/-- Read one value. -/
def readValue : Nat → List Char → Option (JSONValue × List Char)
  | 0, _ => none
  | fuel + 1, cs =>
    match skipWs cs with
    | [] => none
    | c :: rest =>
      if c = '\x7b' then
        match skipWs rest with
        | [] => none
        | c2 :: rest2 =>
          if c2 = '\x7d' then some (JSONValue.object [], rest2)
          else readMembers fuel (c2 :: rest2) []
      else if c = '[' then
        match skipWs rest with
        | [] => none
        | c2 :: rest2 =>
          if c2 = ']' then some (JSONValue.array [], rest2)
          else readElements fuel (c2 :: rest2) []
      else if c = '"' then
        match takeString rest [] with
        | some (s, rest2) => some (JSONValue.string s, rest2)
        | none => none
      else if c = '-' then
        match takeNat rest with
        | some (n, rest2) => some (JSONValue.number (-(n : Int)), rest2)
        | none => none
      else
        match c :: rest with
        | 't' :: 'r' :: 'u' :: 'e' :: rest2 => some (JSONValue.bool true, rest2)
        | 'f' :: 'a' :: 'l' :: 's' :: 'e' :: rest2 => some (JSONValue.bool false, rest2)
        | 'n' :: 'u' :: 'l' :: 'l' :: rest2 => some (JSONValue.null, rest2)
        | other =>
          match takeNat other with
          | some (n, rest2) => some (JSONValue.number (n : Int), rest2)
          | none => none
/-- Read the members of an object, after the opening brace. -/
def readMembers : Nat → List Char → List (String × JSONValue) →
    Option (JSONValue × List Char)
  | 0, _, _ => none
  | fuel + 1, cs, acc =>
    match skipWs cs with
    | [] => none
    | c :: rest =>
      if c = '"' then
        match takeString rest [] with
        | none => none
        | some (k, rest1) =>
          match skipWs rest1 with
          | [] => none
          | c1 :: rest2 =>
            if c1 = ':' then
              match readValue fuel rest2 with
              | none => none
              | some (v, rest3) =>
                match skipWs rest3 with
                | [] => none
                | c3 :: rest4 =>
                  if c3 = ',' then readMembers fuel rest4 (setProp acc k v)
                  else if c3 = '\x7d' then some (JSONValue.object (setProp acc k v), rest4)
                  else none
            else none
      else none
/-- Read the elements of an array, after the opening bracket. -/
def readElements : Nat → List Char → List JSONValue → Option (JSONValue × List Char)
  | 0, _, _ => none
  | fuel + 1, cs, acc =>
    match readValue fuel cs with
    | none => none
    | some (v, rest) =>
      match skipWs rest with
      | [] => none
      | c :: rest2 =>
        if c = ',' then readElements fuel rest2 (acc ++ [v])
        else if c = ']' then some (JSONValue.array (acc ++ [v]), rest2)
        else none
end

/-- A reader that agrees with `JSON.parse` on the subset and rejects the rest. -/
def parseSubset (s : String) : Option JSONValue :=
  match readValue (s.length + 1) s.data with
  | some (v, rest) => if skipWs rest = [] then some v else none
  | none => none

/-! ## Notions used to state the specification -/

/-- Time of day of a line, in milliseconds: defined when the first field is a
well-formed `HH:MM:SS`. -/
def timeOfDay (line : String) : Option Int :=
  match (split line ';').head? with
  | some t => clockMillis t.data
  | none => none

/-- A valid record: at least four fields, the fourth a JSON object, and an
event type and target id that give a request path the HTTP client accepts. -/
def validRecord (rt : Runtime) (line : String) : Bool :=
  match split line ';' with
  | _ :: eventType :: targetId :: payload :: _ =>
    match rt.parse payload with
    | some (JSONValue.object _) =>
      rt.accepts
        (if eventType = "data" then "/iot/send/data/" ++ targetId
          else "/iot/send/alert/" ++ targetId)
    | _ => false
  | _ => false

/-- Target id of a record: its third field. -/
def urnOf (line : String) : String :=
  (split line ';')[2]?.getD ""

/-- The payload with the simulation context injected: raceId and demozone hold
the run's values and every other property reads as in the payload. -/
def Injected (ctx : Context) (props body : List (String × JSONValue)) : Prop :=
  getProp body "raceId" = some (JSONValue.number ctx.raceId) ∧
  getProp body "demozone" = some (JSONValue.string ctx.demozone) ∧
  ∀ k, k ≠ "raceId" → k ≠ "demozone" → getProp body k = getProp props k

/-- The request the specification derives from one line taken alone: the path
is chosen from the line's event type and target id, the body is the line's
payload with the simulation context injected. -/
def DerivedFrom (ctx : Context) (rt : Runtime) (line : String) (req : Request) : Prop :=
  ∃ (t eventType targetId payload : String) (more : List String)
    (props body : List (String × JSONValue)),
    split line ';' = t :: eventType :: targetId :: payload :: more ∧
    rt.parse payload = some (JSONValue.object props) ∧
    (eventType = "data" → req.uri = "/iot/send/data/" ++ targetId) ∧
    (eventType ≠ "data" → req.uri = "/iot/send/alert/" ++ targetId) ∧
    req.body = JSONValue.object body ∧ Injected ctx props body

/-- Path and body of the request a line gives when taken alone, as a function;
the invariants of the loop are stated with it. -/
def specRequest (ctx : Context) (rt : Runtime) (line : String) :
    Option (String × JSONValue) :=
  match split line ';' with
  | _ :: eventType :: targetId :: payload :: _ =>
    match rt.parse payload with
    | some (JSONValue.object props) =>
      some
        (if eventType = "data" then "/iot/send/data/" ++ targetId
          else "/iot/send/alert/" ++ targetId,
         JSONValue.object
          (setProp (setProp props "raceId" (JSONValue.number ctx.raceId)) "demozone"
            (JSONValue.string ctx.demozone)))
    | _ => none
  | _ => none

/-- Path and body of a request. -/
def Request.wire (r : Request) : Option (String × JSONValue) := some (r.uri, r.body)

/-- The distinct elements of a list, in the order in which they are first
seen. -/
def firstSeen : List String → List String
  | [] => []
  | x :: xs => x :: (firstSeen xs).filter (fun y => y != x)

/-- The count the `counter` array holds for a target id; a target id that has
no element has count 0. -/
def messagesOf : List Entry → String → Nat
  | [], _ => 0
  | e :: rest, urn => if e.urn = urn then e.messages else messagesOf rest urn

/-- Among the responses `rs`, the error-free ones that answer a dispatch to
`u`, given the target ids of the dispatches made so far. -/
def tally (sent : List String) (rs : List Response) (u : String) : Nat :=
  (rs.filter (fun r => !r.err && (sent[r.request]? == some u))).length

/-- The error-free responses to dispatches to `u` received before the final
report: those of the gaps before lines `i`, `i + 1`, ..., `i + n - 1`, where
the dispatches made before line `j` are those of lines `0 .. j - 1`. -/
def observedBefore (urns : List String) (u : String) : Nat → Nat → List (List Response) → Nat
  | 0, _, _ => 0
  | n + 1, i, gaps =>
    tally (urns.take i) (gaps.headD []) u + observedBefore urns u n (i + 1) gaps.tail

/-- No response of the schedule reports an error. -/
def errorFree (gaps : List (List Response)) : Bool :=
  gaps.all (fun g => g.all (fun r => !r.err))

/-- States the process can be in after the race file is loaded. -/
inductive Reachable (ctx : Context) (rt : Runtime) : State → Prop where
  | start (lines : List String) : Reachable ctx rt (loaded lines)
  | line {st : State} : Reachable ctx rt st → Reachable ctx rt (processLine ctx rt st)
  | response {st : State} (r : Response) :
      Reachable ctx rt st → Reachable ctx rt (handleResponse st r)
  | done {st : State} : Reachable ctx rt st → Reachable ctx rt (finalCallback st)

/-! ## Invariants of the loop -/

/-- The target ids of the `counter` array, in order. -/
def urns (counter : List Entry) : List String := counter.map Entry.urn

/-- Well-formed state: the target ids of `counter` are distinct, and each
request made closes over the element of its own target id. -/
def Wf (st : State) : Prop :=
  (urns st.counter).Nodup ∧
  ∀ req ∈ st.requests, ∃ i, req.e = some i ∧ (urns st.counter)[i]? = some req.urn

/-- The loop has handled lines `0 .. k - 1`, all dispatched, and is running. -/
def Good (ctx : Context) (rt : Runtime) (st : State) (k : Nat) : Prop :=
  st.index = k ∧ st.status = Status.running ∧ st.report = none ∧ Wf st ∧
  st.requests.map Request.urn = (st.lines.take k).map urnOf ∧
  st.requests.map Request.wire = (st.lines.take k).map (specRequest ctx rt) ∧
  urns st.counter = firstSeen ((st.lines.take k).map urnOf)

/-- Whatever the responses, the requests made so far are those of the
first lines, one per line and in line order. -/
def Sent (ctx : Context) (rt : Runtime) (st : State) : Prop :=
  st.index = st.requests.length ∧
  st.requests.map Request.wire = (st.lines.take st.index).map (specRequest ctx rt)

/-! ## Concrete runs -/

/-- The race file of the specification's scenario. -/
def scenarioFile : String :=
  "10:00:00;data;car-1;\x7b\"speed\":80\x7d\n10:00:02;alert;car-1;\x7b\"code\":5\x7d"

/-- Options of the specification's scenario. -/
def scenarioOptions : Options :=
  { help := false, racefile := some "race.csv", raceid := some 42, demozone := some "PARIS",
    verbose := false }

/-- The constants of the specification's scenario. -/
def scenarioContext : Context := ⟨"race.csv", 42, "PARIS"⟩

/-- A file system with one race file. -/
def oneFile (contents : String) : FileSystem :=
  fun path => if path = "race.csv" then some contents else none

/-- A response received with the given HTTP status. -/
def ok (request : Nat) (statusCode : Nat) : Response :=
  { request := request, transport := false, statusCode := statusCode }

/-- The path check of node's `http.request`: every character of the path
lies between U+0021 and U+00FF. -/
def pathAccepted (path : String) : Bool :=
  path.data.all (fun c => decide (0x21 ≤ c.toNat) && decide (c.toNat ≤ 0xFF))

/-- The runtime used to run the model on concrete race files. -/
def nodeRuntime : Runtime :=
  { parse := parseSubset, accepts := pathAccepted }

/-! ## Lemmas on strings and dates -/

theorem dropPrefix_append (p cs : List Char) : dropPrefix p (p ++ cs) = some cs := by
  induction p with
  | nil => cases cs <;> rfl
  | cons a p ih => simp [dropPrefix, ih]

theorem dateMillis_dummy (t : String) : dateMillis (dummyDate ++ t) = clockMillis t.data := by
  unfold dateMillis
  rw [String.data_append, dropPrefix_append]

theorem truthy_of_clock {t : String} {a : Int} (h : clockMillis t.data = some a) :
    truthy (some t) = true := by
  cases t with
  | mk d =>
    cases d with
    | nil => simp [clockMillis] at h
    | cons c cs => simp [truthy, String.ext_iff]

theorem dispatch_waits (ctx : Context) (rt : Runtime) (st : State)
    (line : String) : (dispatch ctx rt st line).waits = st.waits := by
  unfold dispatch
  split
  · split
    · rfl
    · simp only
      split
      · rfl
      · split <;> rfl
  · rfl

/-! ## Wait before a record -/

/-- C1, as the code has it: the wait before a record is what steps 1-2
compute for its index; record 0 is dispatched without a timer; for a
record `i > 0` whose line and whose previous line both start with a
well-formed `HH:MM:SS`, the timer is set with the signed difference of the two
times of day in milliseconds, which is the clamped value `max 0 (a - b)`
whenever the line is not earlier than the previous one (0 for identical
timestamps). -/
theorem pauseBefore_signed (lines : List String) :
    (∀ (ctx : Context) (rt : Runtime) (st : State) (line : String),
      st.status = Status.running → st.lines[st.index]? = some line →
      (processLine ctx rt st).waits = st.waits ++ [pauseBefore st.lines st.index]) ∧
    pauseBefore lines 0 = Pause.immediate ∧
    ∀ (i : Nat) (line prev : String) (a b : Int), 0 < i →
      lines[i]? = some line → lines[i - 1]? = some prev →
      timeOfDay line = some a → timeOfDay prev = some b →
      pauseBefore lines i = Pause.timeout (some (a - b)) ∧
      (b ≤ a → pauseBefore lines i = Pause.timeout (some (max 0 (a - b)))) ∧
      (a = b → pauseBefore lines i = Pause.timeout (some 0)) := by
  refine ⟨?_, ?_, ?_⟩
  · intro ctx rt st line hrun hline
    unfold processLine
    rw [if_pos hrun, hline]
    exact dispatch_waits ctx rt _ line
  · unfold pauseBefore previousTimestamp
    cases h : lines[0]? with
    | none => rfl
    | some l => cases h1 : (split l ';').head? <;> simp
  · intro i line prev a b hi hl hp ha hb
    have key : pauseBefore lines i = Pause.timeout (some (a - b)) := by
      unfold timeOfDay at ha hb
      cases h1 : (split line ';').head? with
      | none => simp [h1] at ha
      | some t1 =>
        cases h2 : (split prev ';').head? with
        | none => simp [h2] at hb
        | some t2 =>
          simp only [h1] at ha
          simp only [h2] at hb
          have ht := truthy_of_clock hb
          simp [pauseBefore, previousTimestamp, hl, hp, hi, h1, h2, ht, dateMillis_dummy, ha, hb,
            dateDiff]
    refine ⟨key, ?_, ?_⟩
    · intro hle
      rw [key, max_eq_right (sub_nonneg.mpr hle)]
    · intro he
      rw [key, he, sub_self]

/-- Witness for C1: two records two seconds apart. -/
theorem pauseBefore_signed_witness :
    pauseBefore ["10:00:00;data;car-1;\x7b\"speed\":80\x7d",
      "10:00:02;alert;car-1;\x7b\"code\":5\x7d"] 1
      = Pause.timeout (some (36002000 - 36000000)) :=
  ((pauseBefore_signed ["10:00:00;data;car-1;\x7b\"speed\":80\x7d",
      "10:00:02;alert;car-1;\x7b\"code\":5\x7d"]).2.2 1
    "10:00:02;alert;car-1;\x7b\"code\":5\x7d" "10:00:00;data;car-1;\x7b\"speed\":80\x7d"
    36002000 36000000 (by decide) (by decide) (by decide) (by decide) (by decide)).1

/-- C1 as stated fails: when the second line is two seconds earlier than the
first, the wait the code computes and hands to the timer is -2000, not
`max 0 (-2000) = 0`; the run dispatches both records with these waits. -/
theorem pauseBefore_not_clamped :
    timeOfDay "10:00:02;data;car-1;\x7b\"speed\":80\x7d" = some 36002000 ∧
    timeOfDay "10:00:00;alert;car-1;\x7b\"code\":5\x7d" = some 36000000 ∧
    pauseBefore ["10:00:02;data;car-1;\x7b\"speed\":80\x7d",
      "10:00:00;alert;car-1;\x7b\"code\":5\x7d"] 1
      = Pause.timeout (some (-2000)) ∧
    pauseBefore ["10:00:02;data;car-1;\x7b\"speed\":80\x7d",
      "10:00:00;alert;car-1;\x7b\"code\":5\x7d"] 1
      ≠ Pause.timeout (some (max 0 (36000000 - 36002000))) ∧
    (replay scenarioContext nodeRuntime 2 []
      (loaded ["10:00:02;data;car-1;\x7b\"speed\":80\x7d",
        "10:00:00;alert;car-1;\x7b\"code\":5\x7d"])).waits
      = [Pause.immediate, Pause.timeout (some (-2000))] ∧
    (replay scenarioContext nodeRuntime 2 []
      (loaded ["10:00:02;data;car-1;\x7b\"speed\":80\x7d",
        "10:00:00;alert;car-1;\x7b\"code\":5\x7d"])).requests.length = 2 := by
  decide

/-! ## Routing -/

/-- C3: the request path is the data path followed by the target id exactly
when the event type is the string "data", and the alert path followed by the
target id for every other event type. -/
theorem uriFor_route (eventType urn : String) :
    (uriFor eventType urn = "/iot/send/data/" ++ urn ↔ eventType = "data") ∧
    (eventType ≠ "data" → uriFor eventType urn = "/iot/send/alert/" ++ urn) := by
  refine ⟨⟨?_, ?_⟩, ?_⟩
  · intro h
    by_contra hne
    simp only [uriFor, if_neg hne] at h
    have hd := congrArg String.data h
    simp [String.data_append] at hd
  · intro h
    simp [uriFor, h]
  · intro h
    simp [uriFor, h]

/-- Witness for C3: an unrecognised event type goes to the alert path. -/
theorem uriFor_route_witness : uriFor "pitstop" "car-1" = "/iot/send/alert/" ++ "car-1" :=
  (uriFor_route "pitstop" "car-1").2 (by decide)

/-! ## Option validation -/

theorem validate_help (options : Options) (h : options.help = true) :
    validate options = Except.error 0 := by
  simp [validate, h]

theorem validate_reject (options : Options) (h : options.help = false)
    (bad : options.racefile = none ∨ options.raceid = none ∨ options.raceid = some 0 ∨
      options.demozone = none ∨ ∃ d, options.demozone = some d ∧ d ∉ validDemozones) :
    validate options = Except.error (-1) := by
  unfold validate
  rw [if_neg (by simp [h])]
  rcases bad with hb | hb | hb | hb | ⟨d, hd, hnot⟩
  · simp [hb, truthy]
  · simp [hb, truthyNumber]
  · simp [hb, truthyNumber]
  · simp [hb, truthy]
  · split
    · rfl
    · split
      · rename_i rf ri dz e1 e2 e3
        rw [hd] at e3
        cases e3
        simp [hnot]
      · rfl

/-- C9: without `--help`, when racefile, raceid or demozone is missing, or
demozone is not one of the eight valid names, the process exits with a
non-zero status before the input file is looked up or read and before any
dispatch; with `--help` it exits with status zero whatever the other options
are. -/
theorem main_options (options : Options) (fs : FileSystem)
    (rt : Runtime) (gaps : List (List Response)) (late : List Response) :
    (options.help = false →
      (options.racefile = none ∨ options.raceid = none ∨ options.demozone = none ∨
        ∃ d, options.demozone = some d ∧ d ∉ validDemozones) →
      (main options fs rt gaps late).status = Status.exited (-1) ∧
      exitCode (main options fs rt gaps late) ≠ 0 ∧
      (main options fs rt gaps late).fileChecked = false ∧
      (main options fs rt gaps late).fileRead = false ∧
      (main options fs rt gaps late).requests = []) ∧
    (options.help = true →
      (main options fs rt gaps late).status = Status.exited 0 ∧
      exitCode (main options fs rt gaps late) = 0 ∧
      (main options fs rt gaps late).fileRead = false ∧
      (main options fs rt gaps late).requests = []) := by
  constructor
  · intro h bad
    have hv : validate options = Except.error (-1) := by
      apply validate_reject options h
      rcases bad with hb | hb | hb | hb
      · exact Or.inl hb
      · exact Or.inr (Or.inl hb)
      · exact Or.inr (Or.inr (Or.inr (Or.inl hb)))
      · exact Or.inr (Or.inr (Or.inr (Or.inr hb)))
    simp [main, hv, initial, exitCode]
  · intro h
    simp [main, validate_help options h, initial, exitCode]

/-- Witness for C9: the demozone TOKYO is rejected, and `--help` wins over
everything else. -/
theorem main_options_witness :
    exitCode (main { scenarioOptions with demozone := some "TOKYO" } (oneFile scenarioFile)
      nodeRuntime [] []) ≠ 0 ∧
    exitCode (main { scenarioOptions with help := true, demozone := some "TOKYO" }
      (oneFile scenarioFile) nodeRuntime [] []) = 0 :=
  ⟨((main_options { scenarioOptions with demozone := some "TOKYO" } (oneFile scenarioFile)
      nodeRuntime [] []).1 rfl
      (Or.inr (Or.inr (Or.inr ⟨"TOKYO", rfl, by decide⟩)))).2.1,
   ((main_options { scenarioOptions with help := true, demozone := some "TOKYO" }
      (oneFile scenarioFile) nodeRuntime [] []).2 rfl).2.1⟩

/-- C10: race id 0 is rejected exactly like a missing race id: whatever the
racefile and the demozone, the run ends as the same run without the raceid
flag does, with a non-zero exit status and before the input file is looked
up or read. -/
theorem main_raceid_zero (options : Options) (fs : FileSystem)
    (rt : Runtime) (gaps : List (List Response)) (late : List Response)
    (h : options.help = false) (hz : options.raceid = some 0) :
    main options fs rt gaps late = main { options with raceid := none } fs rt gaps late ∧
    (main options fs rt gaps late).status = Status.exited (-1) ∧
    exitCode (main options fs rt gaps late) ≠ 0 ∧
    (main options fs rt gaps late).fileChecked = false ∧
    (main options fs rt gaps late).fileRead = false ∧
    (main options fs rt gaps late).requests = [] := by
  have hv : validate options = Except.error (-1) :=
    validate_reject options h (Or.inr (Or.inr (Or.inl hz)))
  have hv2 : validate { options with raceid := none } = Except.error (-1) :=
    validate_reject _ h (Or.inr (Or.inl rfl))
  simp [main, hv, hv2, initial, exitCode]

/-- Witness for C10: the scenario's options with race id 0. -/
theorem main_raceid_zero_witness :
    exitCode (main { scenarioOptions with raceid := some 0 } (oneFile scenarioFile)
      nodeRuntime [] []) ≠ 0 :=
  (main_raceid_zero { scenarioOptions with raceid := some 0 } (oneFile scenarioFile)
    nodeRuntime [] [] rfl rfl).2.2.1

/-! ## One iteration of the loop -/

theorem getProp_setProp_same (props : List (String × JSONValue)) (k : String) (v : JSONValue) :
    getProp (setProp props k v) k = some v := by
  induction props with
  | nil => simp [setProp, getProp]
  | cons p rest ih =>
    obtain ⟨k', w⟩ := p
    by_cases h : k' = k
    · simp [setProp, getProp, h]
    · simp [setProp, getProp, h, ih]

theorem getProp_setProp_other (props : List (String × JSONValue)) (k k' : String)
    (v : JSONValue) (h : k' ≠ k) : getProp (setProp props k v) k' = getProp props k' := by
  induction props with
  | nil => simp [setProp, getProp, Ne.symm h]
  | cons p rest ih =>
    obtain ⟨k0, w⟩ := p
    by_cases h0 : k0 = k
    · subst h0
      simp [setProp, getProp, Ne.symm h]
    · by_cases h1 : k0 = k'
      · subst h1
        simp [setProp, getProp, h0]
      · simp [setProp, getProp, h0, h1, ih]

theorem filter_setProp (props : List (String × JSONValue)) (k : String) (v : JSONValue)
    (keep : String → Bool) (h : keep k = false) :
    (setProp props k v).filter (fun p => keep p.1) = props.filter (fun p => keep p.1) := by
  induction props with
  | nil => simp [setProp, h]
  | cons p rest ih =>
    obtain ⟨k0, w⟩ := p
    by_cases h0 : k0 = k
    · subst h0
      simp [setProp, List.filter_cons, h]
    · simp [setProp, h0, List.filter_cons, ih]

theorem processLine_running (ctx : Context) (rt : Runtime) (st : State)
    (line : String) (hrun : st.status = Status.running)
    (hline : st.lines[st.index]? = some line) :
    processLine ctx rt st
      = dispatch ctx rt { st with waits := st.waits ++ [pauseBefore st.lines st.index] }
          line := by
  unfold processLine
  rw [if_pos hrun, hline]

theorem processLine_stopped (ctx : Context) (rt : Runtime) (st : State)
    (h : st.status ≠ Status.running) : processLine ctx rt st = st := by
  simp [processLine, h]

theorem handleResponse_stopped (st : State) (r : Response) (h : st.status ≠ Status.running) :
    handleResponse st r = st := by
  simp [handleResponse, h]

theorem handleResponses_stopped (rs : List Response) (st : State)
    (h : st.status ≠ Status.running) : rs.foldl handleResponse st = st := by
  induction rs with
  | nil => rfl
  | cons r rs ih => simp [List.foldl, handleResponse_stopped st r h, ih]

theorem finalCallback_stopped (st : State) (h : st.status ≠ Status.running) :
    finalCallback st = st := by
  simp [finalCallback, h]

theorem iterate_stopped (ctx : Context) (rt : Runtime) (n : Nat)
    (gaps : List (List Response)) (st : State) (h : st.status ≠ Status.running) :
    iterate ctx rt n gaps st = st := by
  induction n generalizing gaps with
  | zero => rfl
  | succ n ih =>
    simp [iterate, handleResponses_stopped _ st h, processLine_stopped ctx rt st h, ih]

theorem replay_stopped (ctx : Context) (rt : Runtime) (n : Nat)
    (gaps : List (List Response)) (st : State) (h : st.status ≠ Status.running) :
    replay ctx rt n gaps st = st := by
  rw [replay, iterate_stopped ctx rt n gaps st h, finalCallback_stopped st h]

theorem dispatch_object (ctx : Context) (rt : Runtime) (st : State)
    (line t eventType urn payload : String) (more : List String)
    (props : List (String × JSONValue))
    (hs : split line ';' = t :: eventType :: urn :: payload :: more)
    (hp : rt.parse payload = some (JSONValue.object props))
    (ha : rt.accepts (uriFor eventType urn) = true) :
    dispatch ctx rt st line =
      { st with
        counter := register st.counter urn
        requests := st.requests ++
          [{ uri := uriFor eventType urn
             body := JSONValue.object
              (setProp (setProp props "raceId" (JSONValue.number ctx.raceId)) "demozone"
                (JSONValue.string ctx.demozone))
             urn := urn
             e := find (register st.counter urn) urn }]
        index := st.index + 1 } := by
  simp [dispatch, hs, hp, inject, ha]

theorem dispatch_rejected (ctx : Context) (rt : Runtime) (st : State)
    (line t eventType urn payload : String) (more : List String)
    (props : List (String × JSONValue))
    (hs : split line ';' = t :: eventType :: urn :: payload :: more)
    (hp : rt.parse payload = some (JSONValue.object props))
    (ha : rt.accepts (uriFor eventType urn) = false) :
    dispatch ctx rt st line = crash { st with counter := register st.counter urn } := by
  simp [dispatch, hs, hp, inject, ha]

theorem dispatch_short (ctx : Context) (rt : Runtime) (st : State)
    (line : String) (h : (split line ';').length < 4) : dispatch ctx rt st line = crash st := by
  unfold dispatch
  split
  · rename_i heq
    rw [heq] at h
    simp only [List.length_cons] at h
    omega
  · rfl

theorem dispatch_unparsed (ctx : Context) (rt : Runtime) (st : State)
    (line payload : String) (h3 : (split line ';')[3]? = some payload)
    (hp : rt.parse payload = none) : dispatch ctx rt st line = crash st := by
  unfold dispatch
  split
  · rename_i t e u p m heq
    rw [heq] at h3
    simp at h3
    subst h3
    simp [hp]
  · rfl

/-- C2: the body passed to `client.post` for a record whose payload is a JSON
object has raceId equal to the run's race id and demozone equal to the run's
demozone, also when the payload already has properties of these names, and
every other property of the payload is unchanged; this is the request sent
whenever `client.post` accepts the path (when it does not, nothing is sent). -/
theorem processLine_body (ctx : Context) (rt : Runtime) (st : State)
    (line t eventType urn payload : String) (more : List String)
    (props : List (String × JSONValue))
    (hrun : st.status = Status.running) (hline : st.lines[st.index]? = some line)
    (hs : split line ';' = t :: eventType :: urn :: payload :: more)
    (hp : rt.parse payload = some (JSONValue.object props)) :
    ∃ (req : Request) (body : List (String × JSONValue)),
      (rt.accepts (uriFor eventType urn) = true →
        (processLine ctx rt st).requests = st.requests ++ [req]) ∧
      (rt.accepts (uriFor eventType urn) = false →
        (processLine ctx rt st).requests = st.requests ∧
        (processLine ctx rt st).status = Status.crashed) ∧
      req.body = JSONValue.object body ∧
      getProp body "raceId" = some (JSONValue.number ctx.raceId) ∧
      getProp body "demozone" = some (JSONValue.string ctx.demozone) ∧
      (∀ k, k ≠ "raceId" → k ≠ "demozone" → getProp body k = getProp props k) ∧
      body.filter (fun p => p.1 != "raceId" && p.1 != "demozone")
        = props.filter (fun p => p.1 != "raceId" && p.1 != "demozone") := by
  refine ⟨{ uri := uriFor eventType urn
            body := JSONValue.object
              (setProp (setProp props "raceId" (JSONValue.number ctx.raceId)) "demozone"
                (JSONValue.string ctx.demozone))
            urn := urn
            e := find (register st.counter urn) urn }, _, ?_, ?_, rfl, ?_, ?_, ?_, ?_⟩
  · intro ha
    rw [processLine_running ctx rt st line hrun hline,
      dispatch_object ctx rt _ line t eventType urn payload more props hs hp ha]
  · intro ha
    rw [processLine_running ctx rt st line hrun hline,
      dispatch_rejected ctx rt _ line t eventType urn payload more props hs hp ha]
    exact ⟨rfl, rfl⟩
  · rw [getProp_setProp_other _ _ _ _ (by decide), getProp_setProp_same]
  · rw [getProp_setProp_same]
  · intro k h1 h2
    rw [getProp_setProp_other _ _ _ _ h2, getProp_setProp_other _ _ _ _ h1]
  · rw [filter_setProp _ "demozone" _ (fun k => k != "raceId" && k != "demozone") (by decide),
      filter_setProp _ "raceId" _ (fun k => k != "raceId" && k != "demozone") (by decide)]

/-- Witness for C2: a payload that already carries a raceId. -/
theorem processLine_body_witness :
    ∃ (req : Request) (body : List (String × JSONValue)),
      (nodeRuntime.accepts (uriFor "data" "car-1") = true →
        (processLine scenarioContext nodeRuntime
          (loaded ["10:00:00;data;car-1;\x7b\"raceId\":7,\"speed\":80\x7d"])).requests
          = [] ++ [req]) ∧
      (nodeRuntime.accepts (uriFor "data" "car-1") = false →
        (processLine scenarioContext nodeRuntime
          (loaded ["10:00:00;data;car-1;\x7b\"raceId\":7,\"speed\":80\x7d"])).requests = [] ∧
        (processLine scenarioContext nodeRuntime
          (loaded ["10:00:00;data;car-1;\x7b\"raceId\":7,\"speed\":80\x7d"])).status
          = Status.crashed) ∧
      req.body = JSONValue.object body ∧
      getProp body "raceId" = some (JSONValue.number 42) ∧
      getProp body "demozone" = some (JSONValue.string "PARIS") ∧
      (∀ k, k ≠ "raceId" → k ≠ "demozone" →
        getProp body k
          = getProp [("raceId", JSONValue.number 7), ("speed", JSONValue.number 80)] k) ∧
      body.filter (fun p => p.1 != "raceId" && p.1 != "demozone")
        = [("raceId", JSONValue.number 7), ("speed", JSONValue.number 80)].filter
            (fun p => p.1 != "raceId" && p.1 != "demozone") :=
  processLine_body scenarioContext nodeRuntime
    (loaded ["10:00:00;data;car-1;\x7b\"raceId\":7,\"speed\":80\x7d"])
    "10:00:00;data;car-1;\x7b\"raceId\":7,\"speed\":80\x7d" "10:00:00" "data" "car-1"
    "\x7b\"raceId\":7,\"speed\":80\x7d" []
    [("raceId", JSONValue.number 7), ("speed", JSONValue.number 80)] rfl rfl (by decide) rfl

theorem processLine_bad (ctx : Context) (rt : Runtime) (st : State)
    (line : String) (hrun : st.status = Status.running)
    (hline : st.lines[st.index]? = some line)
    (bad : (split line ';').length < 4 ∨
      ∃ payload, (split line ';')[3]? = some payload ∧ rt.parse payload = none) :
    processLine ctx rt st
      = crash { st with waits := st.waits ++ [pauseBefore st.lines st.index] } := by
  rw [processLine_running ctx rt st line hrun hline]
  rcases bad with h | ⟨payload, h3, hp⟩
  · exact dispatch_short ctx rt _ line h
  · exact dispatch_unparsed ctx rt _ line payload h3 hp

/-- C8: a line with fewer than four fields, or whose fourth field `JSON.parse`
rejects, ends in an uncaught parse error: no request is made for it, the
counter array is left as it was, and nothing runs afterwards: no later line,
no response callback and no final report. -/
theorem processLine_malformed (ctx : Context) (rt : Runtime) (st : State)
    (line : String) (hrun : st.status = Status.running)
    (hline : st.lines[st.index]? = some line)
    (bad : (split line ';').length < 4 ∨
      ∃ payload, (split line ';')[3]? = some payload ∧ rt.parse payload = none) :
    (processLine ctx rt st).status = Status.crashed ∧
    exitCode (processLine ctx rt st) ≠ 0 ∧
    (processLine ctx rt st).requests = st.requests ∧
    (processLine ctx rt st).counter = st.counter ∧
    (processLine ctx rt st).index = st.index ∧
    (processLine ctx rt st).report = st.report ∧
    ∀ (n : Nat) (gaps : List (List Response)) (late : List Response),
      late.foldl handleResponse (replay ctx rt n gaps (processLine ctx rt st))
        = processLine ctx rt st := by
  have hcrash := processLine_bad ctx rt st line hrun hline bad
  have hstat : (processLine ctx rt st).status ≠ Status.running := by
    rw [hcrash]
    simp [crash]
  refine ⟨by rw [hcrash]; rfl, by rw [hcrash]; simp [crash, exitCode], by rw [hcrash]; rfl,
    by rw [hcrash]; rfl, by rw [hcrash]; rfl, by rw [hcrash]; rfl, ?_⟩
  intro n gaps late
  rw [replay_stopped ctx rt n gaps _ hstat, handleResponses_stopped late _ hstat]

/-- Witness for C8: a payload that is not JSON, followed by a good line. -/
theorem processLine_malformed_witness :
    (processLine scenarioContext nodeRuntime
      (loaded ["10:00:00;data;car-1;speed=80", "10:00:02;alert;car-1;\x7b\"code\":5\x7d"])).status
      = Status.crashed :=
  (processLine_malformed scenarioContext nodeRuntime
    (loaded ["10:00:00;data;car-1;speed=80", "10:00:02;alert;car-1;\x7b\"code\":5\x7d"])
    "10:00:00;data;car-1;speed=80" rfl rfl
    (Or.inr ⟨"speed=80", by decide, by rfl⟩)).1

/-! ## The counter array -/

theorem find_eq_none (counter : List Entry) (u : String) :
    find counter u = none ↔ u ∉ urns counter := by
  induction counter with
  | nil => simp [find, urns]
  | cons e rest ih =>
    by_cases h : e.urn = u
    · simp [find, urns, h]
    · have ih' : find rest u = none ↔ u ∉ List.map Entry.urn rest := ih
      simp [find, urns, h, ih', Ne.symm h]

theorem find_some (counter : List Entry) (u : String) (i : Nat) (h : find counter u = some i) :
    (urns counter)[i]? = some u := by
  induction counter generalizing i with
  | nil => simp [find] at h
  | cons e rest ih =>
    by_cases he : e.urn = u
    · simp [find, he] at h
      subst h
      simp [urns, he]
    · simp only [find, if_neg he] at h
      cases hf : find rest u with
      | none => simp [hf] at h
      | some j =>
        simp [hf] at h
        subst h
        have := ih j hf
        simpa [urns] using this

theorem urns_register (counter : List Entry) (u : String) :
    urns (register counter u) = if u ∈ urns counter then urns counter else urns counter ++ [u] := by
  unfold register
  cases h : find counter u with
  | none =>
    have := (find_eq_none counter u).mp h
    rw [if_neg this]
    simp [urns]
  | some i =>
    have : u ∈ urns counter := by
      by_contra hn
      rw [(find_eq_none counter u).mpr hn] at h
      cases h
    simp [this]

theorem mem_urns_register (counter : List Entry) (u : String) : u ∈ urns (register counter u) := by
  rw [urns_register]
  by_cases h : u ∈ urns counter <;> simp [h]

theorem find_register (counter : List Entry) (u : String) :
    ∃ i, find (register counter u) u = some i ∧ (urns (register counter u))[i]? = some u := by
  cases h : find (register counter u) u with
  | none => exact absurd (mem_urns_register counter u) ((find_eq_none _ u).mp h)
  | some i => exact ⟨i, rfl, find_some _ u i h⟩

theorem nodup_register (counter : List Entry) (u : String) (h : (urns counter).Nodup) :
    (urns (register counter u)).Nodup := by
  rw [urns_register]
  by_cases hu : u ∈ urns counter
  · simpa [hu] using h
  · simp only [if_neg hu]
    rw [List.nodup_append]
    refine ⟨h, List.nodup_singleton u, ?_⟩
    intro a ha hb
    simp at hb
    subst hb
    exact hu ha

theorem getElem?_urns_register (counter : List Entry) (u v : String) (i : Nat)
    (h : (urns counter)[i]? = some v) : (urns (register counter u))[i]? = some v := by
  rw [urns_register]
  by_cases hu : u ∈ urns counter
  · simpa [hu] using h
  · simp only [if_neg hu]
    have hlt : i < (urns counter).length := by
      by_contra hge
      rw [List.getElem?_eq_none (Nat.le_of_not_lt hge)] at h
      cases h
    rw [List.getElem?_append_left hlt]
    exact h

theorem messagesOf_register (counter : List Entry) (u v : String) :
    messagesOf (register counter u) v = messagesOf counter v := by
  unfold register
  cases h : find counter u with
  | some i => simp
  | none =>
    simp only [Option.isNone_none, if_true]
    clear h
    induction counter with
    | nil =>
      by_cases huv : u = v <;> simp [messagesOf, huv]
    | cons e rest ih =>
      by_cases he : e.urn = v <;> simp [messagesOf, he, ih]

theorem urns_bump (counter : List Entry) (i : Nat) : urns (bump counter i) = urns counter := by
  induction counter generalizing i with
  | nil => rfl
  | cons e rest ih =>
    cases i with
    | zero => simp [bump, urns]
    | succ i =>
      have := ih i
      simp only [urns] at this
      simp [bump, urns, this]

theorem messagesOf_bump (counter : List Entry) (i : Nat) (u : String)
    (hn : (urns counter).Nodup) (hi : (urns counter)[i]? = some u) :
    messagesOf (bump counter i) u = messagesOf counter u + 1 ∧
    ∀ v, v ≠ u → messagesOf (bump counter i) v = messagesOf counter v := by
  induction counter generalizing i with
  | nil => simp [urns] at hi
  | cons e rest ih =>
    have hn' : e.urn ∉ urns rest ∧ (urns rest).Nodup := by
      simpa [urns] using hn
    cases i with
    | zero =>
      have he : e.urn = u := by simpa [urns] using hi
      constructor
      · simp [bump, messagesOf, he]
      · intro v hv
        have : ¬ e.urn = v := by
          rw [he]
          exact Ne.symm hv
        simp [bump, messagesOf, this]
    | succ i =>
      have hi' : (urns rest)[i]? = some u := by simpa [urns] using hi
      have hmem : u ∈ urns rest := List.getElem?_mem hi'
      have he : ¬ e.urn = u := by
        intro h
        rw [h] at hn'
        exact hn'.1 hmem
      obtain ⟨h1, h2⟩ := ih i hn'.2 hi'
      constructor
      · simp [bump, messagesOf, he, h1]
      · intro v hv
        by_cases hev : e.urn = v
        · simp [bump, messagesOf, hev]
        · simp [bump, messagesOf, hev, h2 v hv]

theorem wf_loaded (lines : List String) : Wf (loaded lines) := by
  simp [Wf, loaded, initial, urns]

theorem wf_dispatch (ctx : Context) (rt : Runtime) (st : State)
    (line : String) (h : Wf st) : Wf (dispatch ctx rt st line) := by
  unfold dispatch
  split
  · rename_i t eventType urn payload more heq
    split
    · exact h
    · rename_i payloadJSON hp
      have hold : ∀ req ∈ st.requests,
          ∃ i, req.e = some i ∧ (urns (register st.counter urn))[i]? = some req.urn := by
        intro req hreq
        obtain ⟨i, hi, hget⟩ := h.2 req hreq
        exact ⟨i, hi, getElem?_urns_register _ _ _ _ hget⟩
      simp only
      split
      · exact ⟨nodup_register _ _ h.1, hold⟩
      · split
        · refine ⟨nodup_register _ _ h.1, ?_⟩
          intro req hreq
          simp only [List.mem_append, List.mem_singleton] at hreq
          rcases hreq with hreq | hreq
          · exact hold req hreq
          · subst hreq
            exact find_register st.counter urn
        · exact ⟨nodup_register _ _ h.1, hold⟩
  · exact h

theorem wf_processLine (ctx : Context) (rt : Runtime) (st : State)
    (h : Wf st) : Wf (processLine ctx rt st) := by
  unfold processLine
  split
  · split
    · exact h
    · exact wf_dispatch ctx rt _ _ h
  · exact h

theorem wf_handleResponse (st : State) (r : Response) (h : Wf st) : Wf (handleResponse st r) := by
  unfold handleResponse
  split
  · split
    · exact h
    · split
      · exact h
      · split
        · simp only [Wf, urns_bump]
          exact h
        · exact h
  · exact h

theorem wf_finalCallback (st : State) (h : Wf st) : Wf (finalCallback st) := by
  unfold finalCallback
  split
  · exact h
  · exact h

theorem wf_of_reachable {ctx : Context} {rt : Runtime} {st : State}
    (h : Reachable ctx rt st) : Wf st := by
  induction h with
  | start lines => exact wf_loaded lines
  | line _ ih => exact wf_processLine ctx rt _ ih
  | response r _ ih => exact wf_handleResponse _ r ih
  | done _ ih => exact wf_finalCallback _ ih

/-- C7, as the code has it: when the response to a dispatch arrives in a
running process and the client reports an error, which it does for a
transport failure and also for every HTTP status of 400 or more, the process
exits with status -1 and no counter is incremented; otherwise, whatever the
HTTP status below 400, the process keeps running, the count of the dispatched
event's target id grows by exactly 1 and the count of every other target id
is unchanged. -/
theorem handleResponse_counts (ctx : Context) (rt : Runtime) (st : State)
    (r : Response) (req : Request) (hreach : Reachable ctx rt st)
    (hrun : st.status = Status.running) (hreq : st.requests[r.request]? = some req) :
    ((r.transport = true ∨ 400 ≤ r.statusCode) →
      (handleResponse st r).status = Status.exited (-1) ∧
      exitCode (handleResponse st r) ≠ 0 ∧
      (handleResponse st r).counter = st.counter) ∧
    (r.transport = false → r.statusCode < 400 →
      (handleResponse st r).status = Status.running ∧
      (handleResponse st r).index = st.index ∧
      urns (handleResponse st r).counter = urns st.counter ∧
      messagesOf (handleResponse st r).counter req.urn = messagesOf st.counter req.urn + 1 ∧
      ∀ u, u ≠ req.urn →
        messagesOf (handleResponse st r).counter u = messagesOf st.counter u) := by
  have hwf := wf_of_reachable hreach
  obtain ⟨i, hi, hget⟩ := hwf.2 req (List.getElem?_mem hreq)
  constructor
  · intro hbad
    have herr : r.err = true := by
      rcases hbad with h | h
      · simp [Response.err, h]
      · simp [Response.err, h]
    simp [handleResponse, hrun, hreq, herr, exitCode]
  · intro htr hcode
    have herr : r.err = false := by
      simp [Response.err, htr, hcode]
    have hst : handleResponse st r = { st with counter := bump st.counter i } := by
      simp [handleResponse, hrun, hreq, herr, hi]
    rw [hst]
    obtain ⟨h1, h2⟩ := messagesOf_bump st.counter i req.urn hwf.1 hget
    exact ⟨hrun, rfl, urns_bump _ _, h1, h2⟩

/-- Witness for C7: a response with HTTP status 302 to the first dispatch of
the scenario is counted. -/
theorem handleResponse_counts_witness :
    messagesOf (handleResponse (processLine scenarioContext nodeRuntime
      (loaded ["10:00:00;data;car-1;\x7b\"speed\":80\x7d"])) (ok 0 302)).counter "car-1"
      = messagesOf (processLine scenarioContext nodeRuntime
          (loaded ["10:00:00;data;car-1;\x7b\"speed\":80\x7d"])).counter "car-1" + 1 :=
  ((handleResponse_counts scenarioContext nodeRuntime
    (processLine scenarioContext nodeRuntime (loaded ["10:00:00;data;car-1;\x7b\"speed\":80\x7d"]))
    (ok 0 302)
    { uri := "/iot/send/data/car-1"
      body := JSONValue.object
        [("speed", JSONValue.number 80), ("raceId", JSONValue.number 42),
          ("demozone", JSONValue.string "PARIS")]
      urn := "car-1"
      e := some 0 }
    (Reachable.line (Reachable.start _)) rfl rfl).2 rfl (by decide)).2.2.2.1

/-- C7 as stated fails: a response with HTTP status 503 and no transport
failure reaches the callback with an error, so the process exits with status
-1 and the count of car-1 is not incremented. -/
theorem http_error_status_exits :
    (ok 0 503).transport = false ∧
    (processLine scenarioContext nodeRuntime
      (loaded ["10:00:00;data;car-1;\x7b\"speed\":80\x7d"])).status = Status.running ∧
    (handleResponse (processLine scenarioContext nodeRuntime
      (loaded ["10:00:00;data;car-1;\x7b\"speed\":80\x7d"])) (ok 0 503)).status
      = Status.exited (-1) ∧
    messagesOf (handleResponse (processLine scenarioContext nodeRuntime
      (loaded ["10:00:00;data;car-1;\x7b\"speed\":80\x7d"])) (ok 0 503)).counter "car-1"
      = messagesOf (processLine scenarioContext nodeRuntime
          (loaded ["10:00:00;data;car-1;\x7b\"speed\":80\x7d"])).counter "car-1" := by
  decide

/-! ## Responses that arrive in a gap -/

theorem handleResponse_frame (st : State) (r : Response) :
    (handleResponse st r).lines = st.lines ∧ (handleResponse st r).index = st.index ∧
    (handleResponse st r).requests = st.requests ∧ (handleResponse st r).report = st.report := by
  unfold handleResponse
  split
  · split
    · exact ⟨rfl, rfl, rfl, rfl⟩
    · split
      · exact ⟨rfl, rfl, rfl, rfl⟩
      · split <;> exact ⟨rfl, rfl, rfl, rfl⟩
  · exact ⟨rfl, rfl, rfl, rfl⟩

theorem handleResponses_frame (rs : List Response) (st : State) :
    (rs.foldl handleResponse st).lines = st.lines ∧
    (rs.foldl handleResponse st).index = st.index ∧
    (rs.foldl handleResponse st).requests = st.requests ∧
    (rs.foldl handleResponse st).report = st.report := by
  induction rs generalizing st with
  | nil => exact ⟨rfl, rfl, rfl, rfl⟩
  | cons r rs ih =>
    obtain ⟨h1, h2, h3, h4⟩ := ih (handleResponse st r)
    obtain ⟨g1, g2, g3, g4⟩ := handleResponse_frame st r
    simp only [List.foldl]
    exact ⟨h1.trans g1, h2.trans g2, h3.trans g3, h4.trans g4⟩

theorem tally_cons (sent : List String) (r : Response) (rs : List Response) (u : String) :
    tally sent (r :: rs) u = tally sent [r] u + tally sent rs u := by
  unfold tally
  by_cases h : (!r.err && (sent[r.request]? == some u)) = true
  · simp [List.filter_cons, h]
    omega
  · simp [List.filter_cons, h]

theorem handleResponse_ok (st : State) (r : Response) (hwf : Wf st)
    (hrun : st.status = Status.running) (herr : r.err = false) :
    (handleResponse st r).status = Status.running ∧
    urns (handleResponse st r).counter = urns st.counter ∧
    ∀ u, messagesOf (handleResponse st r).counter u
      = messagesOf st.counter u + tally (st.requests.map Request.urn) [r] u := by
  cases hreq : st.requests[r.request]? with
  | none =>
    have hst : handleResponse st r = st := by
      simp [handleResponse, hrun, hreq]
    rw [hst]
    refine ⟨hrun, rfl, ?_⟩
    intro u
    simp [tally, hreq, herr]
  | some req =>
    obtain ⟨i, hi, hget⟩ := hwf.2 req (List.getElem?_mem hreq)
    have hst : handleResponse st r = { st with counter := bump st.counter i } := by
      simp [handleResponse, hrun, hreq, herr, hi]
    rw [hst]
    obtain ⟨h1, h2⟩ := messagesOf_bump st.counter i req.urn hwf.1 hget
    refine ⟨hrun, urns_bump _ _, ?_⟩
    intro u
    by_cases hu : u = req.urn
    · subst hu
      simp [tally, hreq, herr, h1]
    · have hne : ¬ req.urn = u := fun h => hu h.symm
      simp [tally, hreq, herr, h2 u hu, hne]

theorem handleResponses_ok (rs : List Response) (st : State) (hwf : Wf st)
    (hrun : st.status = Status.running) (hok : ∀ r ∈ rs, r.err = false) :
    (rs.foldl handleResponse st).status = Status.running ∧
    Wf (rs.foldl handleResponse st) ∧
    urns (rs.foldl handleResponse st).counter = urns st.counter ∧
    ∀ u, messagesOf (rs.foldl handleResponse st).counter u
      = messagesOf st.counter u + tally (st.requests.map Request.urn) rs u := by
  induction rs generalizing st with
  | nil =>
    refine ⟨hrun, hwf, rfl, ?_⟩
    intro u
    simp [tally]
  | cons r rs ih =>
    have herr : r.err = false := hok r (List.mem_cons_self r rs)
    obtain ⟨g1, g2, g3⟩ := handleResponse_ok st r hwf hrun herr
    have hreqs := (handleResponse_frame st r).2.2.1
    obtain ⟨h1, h2, h3, h4⟩ := ih (handleResponse st r) (wf_handleResponse st r hwf) g1
      (fun x hx => hok x (List.mem_cons_of_mem r hx))
    simp only [List.foldl]
    refine ⟨h1, h2, h3.trans g2, ?_⟩
    intro u
    rw [h4 u, g3 u, hreqs, tally_cons _ r rs u]
    omega

/-! ## A valid record -/

theorem uriFor_eq (eventType urn : String) :
    uriFor eventType urn
      = if eventType = "data" then "/iot/send/data/" ++ urn else "/iot/send/alert/" ++ urn := by
  unfold uriFor
  by_cases h : eventType = "data" <;> simp [h]

theorem processLine_valid (ctx : Context) (rt : Runtime) (st : State)
    (line : String) (hrun : st.status = Status.running)
    (hline : st.lines[st.index]? = some line) (hv : validRecord rt line = true) :
    ∃ req : Request,
      processLine ctx rt st =
        { st with
          waits := st.waits ++ [pauseBefore st.lines st.index]
          counter := register st.counter (urnOf line)
          requests := st.requests ++ [req]
          index := st.index + 1 } ∧
      req.urn = urnOf line ∧ req.wire = specRequest ctx rt line := by
  unfold validRecord at hv
  split at hv
  · rename_i t eventType urn payload more heq
    split at hv
    · rename_i props hp
      have hu : urnOf line = urn := by simp [urnOf, heq]
      have ha : rt.accepts (uriFor eventType urn) = true := by
        rw [uriFor_eq]
        exact hv
      refine ⟨{ uri := uriFor eventType urn
                body := JSONValue.object
                  (setProp (setProp props "raceId" (JSONValue.number ctx.raceId)) "demozone"
                    (JSONValue.string ctx.demozone))
                urn := urn
                e := find (register st.counter urn) urn }, ?_, hu.symm, ?_⟩
      · rw [processLine_running ctx rt st line hrun hline,
          dispatch_object ctx rt _ line t eventType urn payload more props heq hp ha, hu]
      · simp only [Request.wire, specRequest, heq, hp, uriFor_eq]
    · cases hv
  · cases hv

theorem validRecord_ne_empty (rt : Runtime) (line : String)
    (hv : validRecord rt line = true) : line ≠ "" := by
  intro h
  subst h
  simp [validRecord, split, splitChars] at hv

/-! ## First-seen order -/

theorem mem_firstSeen (xs : List String) (x : String) : x ∈ firstSeen xs ↔ x ∈ xs := by
  induction xs with
  | nil => simp [firstSeen]
  | cons y ys ih =>
    by_cases h : x = y
    · simp [firstSeen, h]
    · simp [firstSeen, h, ih]

theorem firstSeen_snoc (xs : List String) (x : String) :
    firstSeen (xs ++ [x]) = if x ∈ xs then firstSeen xs else firstSeen xs ++ [x] := by
  induction xs with
  | nil => simp [firstSeen]
  | cons y ys ih =>
    have e1 : firstSeen (y :: (ys ++ [x]))
        = y :: (firstSeen (ys ++ [x])).filter (fun z => z != y) := rfl
    have e2 : firstSeen (y :: ys) = y :: (firstSeen ys).filter (fun z => z != y) := rfl
    rw [List.cons_append, e1, e2, ih]
    by_cases hxy : x = y
    · subst hxy
      by_cases hm : x ∈ ys
      · simp [hm]
      · simp [hm, List.filter_append]
    · by_cases hm : x ∈ ys
      · simp [hm, hxy]
      · simp [hm, hxy, List.filter_append]

theorem urns_register_firstSeen (counter : List Entry) (xs : List String) (u : String)
    (h : urns counter = firstSeen xs) : urns (register counter u) = firstSeen (xs ++ [u]) := by
  rw [urns_register, firstSeen_snoc, h]
  simp only [mem_firstSeen]

/-! ## The loop on valid records -/

theorem good_loaded (ctx : Context) (rt : Runtime) (lines : List String) :
    Good ctx rt (loaded lines) 0 := by
  refine ⟨rfl, rfl, rfl, wf_loaded lines, ?_, ?_, ?_⟩ <;> simp [loaded, initial, urns, firstSeen]

theorem good_step (ctx : Context) (rt : Runtime) (st : State) (k : Nat)
    (g : List Response) (line : String) (hg : Good ctx rt st k)
    (hok : ∀ r ∈ g, r.err = false) (hline : st.lines[k]? = some line)
    (hv : validRecord rt line = true) :
    (processLine ctx rt (g.foldl handleResponse st)).lines = st.lines ∧
    Good ctx rt (processLine ctx rt (g.foldl handleResponse st)) (k + 1) ∧
    ∀ u, messagesOf (processLine ctx rt (g.foldl handleResponse st)).counter u
      = messagesOf st.counter u + tally ((st.lines.take k).map urnOf) g u := by
  obtain ⟨hidx, hrun, hrep, hwf, hurn, hwire, hfirst⟩ := hg
  obtain ⟨f1, f2, f3, f4⟩ := handleResponses_frame g st
  obtain ⟨o1, o2, o3, o4⟩ := handleResponses_ok g st hwf hrun hok
  have hline' : (g.foldl handleResponse st).lines[(g.foldl handleResponse st).index]?
      = some line := by
    rw [f1, f2, hidx]
    exact hline
  obtain ⟨req, hst, hrurn, hrwire⟩ :=
    processLine_valid ctx rt (g.foldl handleResponse st) line o1 hline' hv
  have hwf2 := wf_processLine ctx rt _ o2
  have htake : st.lines.take (k + 1) = st.lines.take k ++ [line] := by
    rw [List.take_succ, hline]
    rfl
  rw [hst] at hwf2 ⊢
  refine ⟨f1, ⟨?_, o1, ?_, hwf2, ?_, ?_, ?_⟩, ?_⟩
  · simp [f2, hidx]
  · simp [f4, hrep]
  · simp [f1, f3, htake, hurn, hrurn]
  · simp [f1, f3, htake, hwire, hrwire]
  · simp only [f1, htake, List.map_append, List.map_cons, List.map_nil]
    exact urns_register_firstSeen _ _ _ (o3.trans hfirst)
  · intro u
    simp only [messagesOf_register]
    rw [o4 u, hurn]

theorem iterate_valid (ctx : Context) (rt : Runtime) (n : Nat) :
    ∀ (gaps : List (List Response)) (st : State) (k : Nat), Good ctx rt st k →
      (∀ g ∈ gaps, ∀ r ∈ g, r.err = false) →
      (∀ j, j < k + n → ∃ line, st.lines[j]? = some line ∧ validRecord rt line = true) →
      (iterate ctx rt n gaps st).lines = st.lines ∧
      Good ctx rt (iterate ctx rt n gaps st) (k + n) ∧
      ∀ u, messagesOf (iterate ctx rt n gaps st).counter u
        = messagesOf st.counter u + observedBefore (st.lines.map urnOf) u n k gaps := by
  induction n with
  | zero =>
    intro gaps st k hg _ _
    refine ⟨rfl, hg, ?_⟩
    intro u
    simp [iterate, observedBefore]
  | succ n ih =>
    intro gaps st k hg hok hv
    obtain ⟨line, hline, hvalid⟩ := hv k (by omega)
    have hhead : ∀ r ∈ gaps.headD [], r.err = false := by
      cases gaps with
      | nil => simp
      | cons g rest => exact hok g (List.mem_cons_self g rest)
    have htail : ∀ g ∈ gaps.tail, ∀ r ∈ g, r.err = false :=
      fun g hgm => hok g (List.mem_of_mem_tail hgm)
    obtain ⟨s1, s2, s3⟩ := good_step ctx rt st k (gaps.headD []) line hg hhead hline hvalid
    obtain ⟨i1, i2, i3⟩ := ih gaps.tail _ (k + 1) s2 htail (by
      intro j hj
      rw [s1]
      exact hv j (by omega))
    simp only [iterate]
    refine ⟨i1.trans s1, ?_, ?_⟩
    · have : k + (n + 1) = k + 1 + n := by omega
      rw [this]
      exact i2
    · intro u
      rw [i3 u, s3 u, s1]
      simp only [observedBefore, List.map_take]
      omega

theorem iterate_succ_last (ctx : Context) (rt : Runtime) (n : Nat) :
    ∀ (gaps : List (List Response)) (st : State),
      iterate ctx rt (n + 1) gaps st
        = iterate ctx rt 1 (gaps.drop n) (iterate ctx rt n gaps st) := by
  induction n with
  | zero =>
    intro gaps st
    rfl
  | succ n ih =>
    intro gaps st
    have h := ih gaps.tail (processLine ctx rt ((gaps.headD []).foldl handleResponse st))
    have hd : gaps.tail.drop n = gaps.drop (n + 1) := by
      cases gaps <;> simp
    rw [hd] at h
    exact h

theorem sent_handleResponses (ctx : Context) (rt : Runtime)
    (rs : List Response) (st : State) (h : Sent ctx rt st) :
    Sent ctx rt (rs.foldl handleResponse st) := by
  obtain ⟨f1, f2, f3, _⟩ := handleResponses_frame rs st
  unfold Sent
  rw [f1, f2, f3]
  exact h

theorem sent_processLine (ctx : Context) (rt : Runtime) (st : State)
    (hv : ∀ line ∈ st.lines, validRecord rt line = true) (h : Sent ctx rt st) :
    (processLine ctx rt st).lines = st.lines ∧ Sent ctx rt (processLine ctx rt st) := by
  by_cases hrun : st.status = Status.running
  · cases hline : st.lines[st.index]? with
    | none =>
      have : processLine ctx rt st = st := by
        simp [processLine, hrun, hline]
      rw [this]
      exact ⟨rfl, h⟩
    | some line =>
      obtain ⟨req, hst, _, hwire⟩ := processLine_valid ctx rt st line hrun hline
        (hv line (List.getElem?_mem hline))
      have htake : st.lines.take (st.index + 1) = st.lines.take st.index ++ [line] := by
        rw [List.take_succ, hline]
        rfl
      rw [hst]
      refine ⟨rfl, ?_, ?_⟩
      · simp [h.1]
      · simp [htake, h.2, hwire]
  · rw [processLine_stopped ctx rt st hrun]
    exact ⟨rfl, h⟩

theorem sent_processLine_lines (ctx : Context) (rt : Runtime) (st : State)
    (hv : ∀ line ∈ st.lines, validRecord rt line = true) :
    (processLine ctx rt st).lines = st.lines := by
  by_cases hrun : st.status = Status.running
  · cases hline : st.lines[st.index]? with
    | none =>
      have : processLine ctx rt st = st := by
        simp [processLine, hrun, hline]
      rw [this]
    | some line =>
      obtain ⟨req, hst, _, _⟩ := processLine_valid ctx rt st line hrun hline
        (hv line (List.getElem?_mem hline))
      rw [hst]
  · rw [processLine_stopped ctx rt st hrun]

theorem sent_iterate (ctx : Context) (rt : Runtime) (n : Nat) :
    ∀ (gaps : List (List Response)) (st : State),
      (∀ line ∈ st.lines, validRecord rt line = true) → Sent ctx rt st →
      (iterate ctx rt n gaps st).lines = st.lines ∧
      Sent ctx rt (iterate ctx rt n gaps st) := by
  induction n with
  | zero =>
    intro gaps st _ h
    exact ⟨rfl, h⟩
  | succ n ih =>
    intro gaps st hv h
    have hl := (handleResponses_frame (gaps.headD []) st).1
    obtain ⟨p1, p2⟩ := sent_processLine ctx rt ((gaps.headD []).foldl handleResponse st)
      (by rw [hl]; exact hv) (sent_handleResponses ctx rt _ st h)
    obtain ⟨i1, i2⟩ := ih gaps.tail _ (by rw [p1, hl]; exact hv) p2
    simp only [iterate]
    exact ⟨i1.trans (p1.trans hl), i2⟩

theorem finalCallback_frame (st : State) :
    (finalCallback st).lines = st.lines ∧ (finalCallback st).index = st.index ∧
    (finalCallback st).requests = st.requests ∧ (finalCallback st).counter = st.counter ∧
    (finalCallback st).status = st.status := by
  unfold finalCallback
  split <;> exact ⟨rfl, rfl, rfl, rfl, rfl⟩

theorem errorFree_iff (gaps : List (List Response)) :
    errorFree gaps = true ↔ ∀ g ∈ gaps, ∀ r ∈ g, r.err = false := by
  simp [errorFree, List.all_eq_true]

theorem valid_lines (rt : Runtime) (lines : List String)
    (hv : lines.all (validRecord rt) = true) :
    (∀ line ∈ lines, validRecord rt line = true) ∧
    ∀ j, j < 0 + lines.length →
      ∃ line, lines[j]? = some line ∧ validRecord rt line = true := by
  have h1 : ∀ line ∈ lines, validRecord rt line = true := by
    simpa [List.all_eq_true] using hv
  refine ⟨h1, ?_⟩
  intro j hj
  have hj' : j < lines.length := by omega
  exact ⟨lines[j], List.getElem?_eq_getElem hj', h1 _ (List.getElem_mem hj')⟩

theorem safe_handleResponse (st : State) (r : Response) (hwf : Wf st)
    (h : st.status ≠ Status.crashed) : (handleResponse st r).status ≠ Status.crashed := by
  by_cases hrun : st.status = Status.running
  · cases hreq : st.requests[r.request]? with
    | none =>
      have : handleResponse st r = st := by simp [handleResponse, hrun, hreq]
      rw [this]
      exact h
    | some req =>
      obtain ⟨i, hi, _⟩ := hwf.2 req (List.getElem?_mem hreq)
      cases herr : r.err <;> simp [handleResponse, hrun, hreq, herr, hi]
  · rw [handleResponse_stopped st r hrun]
    exact h

theorem safe_handleResponses (rs : List Response) (st : State) (hwf : Wf st)
    (h : st.status ≠ Status.crashed) :
    Wf (rs.foldl handleResponse st) ∧ (rs.foldl handleResponse st).status ≠ Status.crashed := by
  induction rs generalizing st with
  | nil => exact ⟨hwf, h⟩
  | cons r rs ih =>
    simp only [List.foldl]
    exact ih _ (wf_handleResponse st r hwf) (safe_handleResponse st r hwf h)

theorem safe_processLine (ctx : Context) (rt : Runtime) (st : State)
    (hv : ∀ line ∈ st.lines, validRecord rt line = true)
    (h : st.status ≠ Status.crashed) : (processLine ctx rt st).status ≠ Status.crashed := by
  by_cases hrun : st.status = Status.running
  · cases hline : st.lines[st.index]? with
    | none =>
      have : processLine ctx rt st = st := by
        simp [processLine, hrun, hline]
      rw [this]
      exact h
    | some line =>
      obtain ⟨req, hst, _, _⟩ := processLine_valid ctx rt st line hrun hline
        (hv line (List.getElem?_mem hline))
      rw [hst]
      exact h
  · rw [processLine_stopped ctx rt st hrun]
    exact h

theorem safe_iterate (ctx : Context) (rt : Runtime) (n : Nat) :
    ∀ (gaps : List (List Response)) (st : State),
      (∀ line ∈ st.lines, validRecord rt line = true) → Wf st →
      st.status ≠ Status.crashed → (iterate ctx rt n gaps st).status ≠ Status.crashed := by
  induction n with
  | zero =>
    intro gaps st _ _ h
    exact h
  | succ n ih =>
    intro gaps st hv hwf h
    have hl := (handleResponses_frame (gaps.headD []) st).1
    obtain ⟨w1, w2⟩ := safe_handleResponses (gaps.headD []) st hwf h
    have hv' : ∀ line ∈ ((gaps.headD []).foldl handleResponse st).lines,
        validRecord rt line = true := by
      rw [hl]
      exact hv
    have hl2 := (sent_processLine_lines ctx rt _ hv')
    simp only [iterate]
    exact ih gaps.tail _ (by rw [hl2, hl]; exact hv) (wf_processLine ctx rt _ w1)
      (safe_processLine ctx rt _ hv' w2)

theorem derived_of_wire (ctx : Context) (rt : Runtime) (line : String) (req : Request)
    (hv : validRecord rt line = true) (hw : req.wire = specRequest ctx rt line) :
    DerivedFrom ctx rt line req := by
  unfold validRecord at hv
  split at hv
  · rename_i t eventType targetId payload more heq
    split at hv
    · rename_i props hp
      simp only [Request.wire, specRequest, heq, hp, Option.some.injEq, Prod.mk.injEq] at hw
      obtain ⟨huri, hbody⟩ := hw
      refine ⟨t, eventType, targetId, payload, more, props, _, heq, hp, ?_, ?_, hbody, ?_, ?_, ?_⟩
      · intro hd
        rw [huri, if_pos hd]
      · intro hd
        rw [huri, if_neg hd]
      · rw [getProp_setProp_other _ _ _ _ (by decide), getProp_setProp_same]
      · rw [getProp_setProp_same]
      · intro k h1 h2
        rw [getProp_setProp_other _ _ _ _ h2, getProp_setProp_other _ _ _ _ h1]
    · cases hv
  · cases hv

theorem derived_of_wires (ctx : Context) (rt : Runtime) (lines : List String) :
    ∀ (reqs : List Request), (∀ line ∈ lines, validRecord rt line = true) →
      reqs.map Request.wire = lines.map (specRequest ctx rt) →
      List.Forall₂ (DerivedFrom ctx rt) lines reqs := by
  induction lines with
  | nil =>
    intro reqs _ hw
    cases reqs with
    | nil => exact List.Forall₂.nil
    | cons r rs => simp at hw
  | cons line rest ih =>
    intro reqs hv hw
    cases reqs with
    | nil => simp at hw
    | cons r rs =>
      simp only [List.map_cons, List.cons.injEq] at hw
      exact List.Forall₂.cons
        (derived_of_wire ctx rt line r (hv line (List.mem_cons_self line rest)) hw.1)
        (ih rs (fun l hl => hv l (List.mem_cons_of_mem line hl)) hw.2)

/-- C6, as the code has it: on a timeline in which every line is a valid
record, whatever the responses, the requests made are those of the first
lines, exactly one per line and in line order, each the request the
specification derives from its line alone, and the replay never stops on a
parse error; when no response received during the replay carries an error,
this goes through all the lines 0..N-1. -/
theorem replay_requests (ctx : Context) (rt : Runtime)
    (lines : List String) (gaps : List (List Response))
    (hv : lines.all (validRecord rt) = true) :
    (replay ctx rt lines.length gaps (loaded lines)).requests.length ≤ lines.length ∧
    List.Forall₂ (DerivedFrom ctx rt)
      (lines.take (replay ctx rt lines.length gaps (loaded lines)).requests.length)
      (replay ctx rt lines.length gaps (loaded lines)).requests ∧
    (replay ctx rt lines.length gaps (loaded lines)).status ≠ Status.crashed ∧
    (errorFree gaps = true →
      (replay ctx rt lines.length gaps (loaded lines)).requests.length = lines.length ∧
      List.Forall₂ (DerivedFrom ctx rt) lines
        (replay ctx rt lines.length gaps (loaded lines)).requests) := by
  obtain ⟨hv1, hv2⟩ := valid_lines rt lines hv
  obtain ⟨c1, c2, c3, _, c5⟩ :=
    finalCallback_frame (iterate ctx rt lines.length gaps (loaded lines))
  unfold replay
  rw [c3, c5]
  obtain ⟨s1, s2, s3⟩ := sent_iterate ctx rt lines.length gaps (loaded lines) hv1 ⟨rfl, rfl⟩
  have hl : (loaded lines).lines = lines := rfl
  rw [s1, hl] at s3
  have hlen := congrArg List.length s3
  simp only [List.length_map, List.length_take] at hlen
  refine ⟨?_, ?_, ?_, ?_⟩
  · rw [← s2] at hlen
    omega
  · apply derived_of_wires ctx rt _ _ (fun l hm => hv1 l (List.mem_of_mem_take hm))
    rw [← s2]
    exact s3
  · exact safe_iterate ctx rt lines.length gaps (loaded lines) hv1 (wf_loaded lines)
      (by simp [loaded, initial])
  · intro hok
    obtain ⟨i1, i2, _⟩ := iterate_valid ctx rt lines.length gaps (loaded lines) 0
      (good_loaded ctx rt lines) ((errorFree_iff gaps).mp hok) hv2
    obtain ⟨_, _, _, _, _, hwire, _⟩ := i2
    have hw : (iterate ctx rt lines.length gaps (loaded lines)).requests.map Request.wire
        = lines.map (specRequest ctx rt) := by
      rw [hwire, i1]
      simp [loaded]
    refine ⟨?_, derived_of_wires ctx rt lines _ hv1 hw⟩
    have := congrArg List.length hw
    simpa using this

/-- Witness for C6: the two dispatches of the specification's scenario. -/
theorem replay_requests_witness :
    List.Forall₂ (DerivedFrom scenarioContext nodeRuntime)
      ["10:00:00;data;car-1;\x7b\"speed\":80\x7d", "10:00:02;alert;car-1;\x7b\"code\":5\x7d"]
      (replay scenarioContext nodeRuntime
        ["10:00:00;data;car-1;\x7b\"speed\":80\x7d",
          "10:00:02;alert;car-1;\x7b\"code\":5\x7d"].length
        [[], [ok 0 200]]
        (loaded ["10:00:00;data;car-1;\x7b\"speed\":80\x7d",
          "10:00:02;alert;car-1;\x7b\"code\":5\x7d"])).requests :=
  ((replay_requests scenarioContext nodeRuntime
    ["10:00:00;data;car-1;\x7b\"speed\":80\x7d", "10:00:02;alert;car-1;\x7b\"code\":5\x7d"]
    [[], [ok 0 200]] (by decide)).2.2.2 (by decide)).2

/-- C6 as stated fails: on the two valid lines of the specification's scenario,
when the first dispatch comes back with a transport error during the wait
before the second line, the process exits and only one request is made. -/
theorem error_response_stops_replay :
    ["10:00:00;data;car-1;\x7b\"speed\":80\x7d",
      "10:00:02;alert;car-1;\x7b\"code\":5\x7d"].all (validRecord nodeRuntime) = true ∧
    (replay scenarioContext nodeRuntime 2 [[], [⟨0, true, 0⟩]]
      (loaded ["10:00:00;data;car-1;\x7b\"speed\":80\x7d",
        "10:00:02;alert;car-1;\x7b\"code\":5\x7d"])).requests.length = 1 ∧
    (replay scenarioContext nodeRuntime 2 [[], [⟨0, true, 0⟩]]
      (loaded ["10:00:00;data;car-1;\x7b\"speed\":80\x7d",
        "10:00:02;alert;car-1;\x7b\"code\":5\x7d"])).status = Status.exited (-1) := by
  decide

/-! ## The whole run -/

theorem splitChars_ne_nil (sep : Char) (cs : List Char) : splitChars sep cs ≠ [] := by
  induction cs with
  | nil => simp [splitChars]
  | cons c cs ih =>
    unfold splitChars
    split
    · simp
    · split <;> simp

theorem splitChars_snoc (sep : Char) (cs : List Char) :
    splitChars sep (cs ++ [sep]) = splitChars sep cs ++ [[]] := by
  induction cs with
  | nil => simp [splitChars]
  | cons c cs ih =>
    by_cases h : c = sep
    · simp [splitChars, h, ih]
    · cases hs : splitChars sep cs with
      | nil => exact absurd hs (splitChars_ne_nil sep cs)
      | cons f fs => simp [splitChars, h, ih, hs]

theorem split_trailing_newline (body : String) :
    split (body ++ "\n") '\n' = split body '\n' ++ [""] := by
  unfold split
  rw [String.data_append]
  have : ("\n" : String).data = ['\n'] := rfl
  rw [this, splitChars_snoc]
  simp

theorem filter_valid (rt : Runtime) (lines : List String)
    (hv : ∀ line ∈ lines, validRecord rt line = true) :
    lines.filter (fun l => l != "") = lines := by
  rw [List.filter_eq_self]
  intro line hl
  simpa using validRecord_ne_empty rt line (hv line hl)

theorem main_loaded (options : Options) (ctx : Context) (fs : FileSystem)
    (rt : Runtime) (gaps : List (List Response)) (late : List Response)
    (contents : String) (hopt : validate options = Except.ok ctx)
    (hfile : fs ctx.raceDataFile = some contents) :
    main options fs rt gaps late
      = late.foldl handleResponse
          (replay ctx rt (split contents '\n').length gaps (loaded (split contents '\n'))) := by
  simp [main, hopt, hfile]

theorem messagesOf_mem (counter : List Entry) (e : Entry) (hn : (urns counter).Nodup)
    (he : e ∈ counter) : messagesOf counter e.urn = e.messages := by
  induction counter with
  | nil => cases he
  | cons c rest ih =>
    have hn' : c.urn ∉ urns rest ∧ (urns rest).Nodup := by
      simpa [urns] using hn
    rcases List.mem_cons.mp he with h | h
    · subst h
      simp [messagesOf]
    · have hne : ¬ c.urn = e.urn := by
        intro hc
        apply hn'.1
        rw [hc]
        exact List.mem_map_of_mem Entry.urn h
      simp [messagesOf, hne, ih hn'.2 h]

theorem replay_valid (ctx : Context) (rt : Runtime)
    (lines : List String) (gaps : List (List Response))
    (hv : lines.all (validRecord rt) = true) (hok : errorFree gaps = true) :
    (replay ctx rt lines.length gaps (loaded lines)).report
      = some (replay ctx rt lines.length gaps (loaded lines)).counter ∧
    (replay ctx rt lines.length gaps (loaded lines)).requests.length = lines.length ∧
    (urns (replay ctx rt lines.length gaps (loaded lines)).counter).Nodup ∧
    urns (replay ctx rt lines.length gaps (loaded lines)).counter
      = firstSeen (lines.map urnOf) ∧
    ∀ u, messagesOf (replay ctx rt lines.length gaps (loaded lines)).counter u
      = observedBefore (lines.map urnOf) u lines.length 0 gaps := by
  obtain ⟨_, hv2⟩ := valid_lines rt lines hv
  obtain ⟨i1, i2, i3⟩ := iterate_valid ctx rt lines.length gaps (loaded lines) 0
    (good_loaded ctx rt lines) ((errorFree_iff gaps).mp hok) hv2
  obtain ⟨_, hrun, _, hwf, hurn, _, hfirst⟩ := i2
  have hfin : replay ctx rt lines.length gaps (loaded lines)
      = { iterate ctx rt lines.length gaps (loaded lines) with
          report := some (iterate ctx rt lines.length gaps (loaded lines)).counter } := by
    simp [replay, finalCallback, hrun]
  have hl : (loaded lines).lines = lines := rfl
  rw [hfin]
  refine ⟨rfl, ?_, hwf.1, ?_, ?_⟩
  · have := congrArg List.length hurn
    rw [i1, hl] at this
    simpa using this
  · show urns (iterate ctx rt lines.length gaps (loaded lines)).counter = _
    rw [hfirst, i1, hl]
    simp
  · intro u
    show messagesOf (iterate ctx rt lines.length gaps (loaded lines)).counter u = _
    rw [i3 u, hl]
    simp [loaded, initial, messagesOf]

/-- C4, as the code has it: on a race file of valid records, when no response
received before the report carries an error, the final report has
exactly one entry per distinct target id of the input, in first-seen order,
and each count is the number of error-free responses to dispatches to that
target id that had arrived when the report was printed, which is right after
the last dispatch; responses that arrive later do not change the report. -/
theorem main_report (options : Options) (ctx : Context) (fs : FileSystem)
    (rt : Runtime) (gaps : List (List Response))
    (contents : String) (hopt : validate options = Except.ok ctx)
    (hfile : fs ctx.raceDataFile = some contents)
    (hv : (split contents '\n').all (validRecord rt) = true)
    (hok : errorFree gaps = true) :
    ∃ entries : List Entry,
      (∀ late : List Response, (main options fs rt gaps late).report = some entries) ∧
      (entries.map Entry.urn).Nodup ∧
      (∀ u, u ∈ entries.map Entry.urn ↔ u ∈ (split contents '\n').map urnOf) ∧
      entries.map Entry.urn = firstSeen ((split contents '\n').map urnOf) ∧
      ∀ e ∈ entries,
        e.messages
          = observedBefore ((split contents '\n').map urnOf) e.urn (split contents '\n').length 0
              gaps := by
  obtain ⟨r1, _, r3, r4, r5⟩ := replay_valid ctx rt (split contents '\n') gaps hv hok
  have r4' : List.map Entry.urn (replay ctx rt (split contents '\n').length gaps
      (loaded (split contents '\n'))).counter = firstSeen ((split contents '\n').map urnOf) := r4
  refine ⟨(replay ctx rt (split contents '\n').length gaps
    (loaded (split contents '\n'))).counter, ?_, r3, ?_, r4, ?_⟩
  · intro late
    rw [main_loaded options ctx fs rt gaps late contents hopt hfile,
      (handleResponses_frame late _).2.2.2, r1]
  · intro u
    rw [r4']
    exact mem_firstSeen _ u
  · intro e he
    rw [← r5 e.urn, messagesOf_mem _ e r3 he]

/-- Witness for C4: the specification's scenario, the first response arriving
during the two-second wait. -/
theorem main_report_witness :
    ∃ entries : List Entry,
      (∀ late : List Response,
        (main scenarioOptions (oneFile scenarioFile) nodeRuntime [[], [ok 0 200]] late).report
          = some entries) ∧
      (entries.map Entry.urn).Nodup ∧
      (∀ u, u ∈ entries.map Entry.urn ↔ u ∈ (split scenarioFile '\n').map urnOf) ∧
      entries.map Entry.urn = firstSeen ((split scenarioFile '\n').map urnOf) ∧
      ∀ e ∈ entries,
        e.messages
          = observedBefore ((split scenarioFile '\n').map urnOf) e.urn
              (split scenarioFile '\n').length 0 [[], [ok 0 200]] :=
  main_report scenarioOptions scenarioContext (oneFile scenarioFile) nodeRuntime
    [[], [ok 0 200]] scenarioFile rfl rfl (by decide) (by decide)

/-- C4 as stated fails on the specification's own scenario: both dispatches to
car-1 get an error-free response, yet the report says `car-1: 1`, because it
is printed in the same turn as the last dispatch, before that dispatch can be
answered. -/
theorem report_misses_last_response :
    (split scenarioFile '\n').all (validRecord nodeRuntime) = true ∧
    (main scenarioOptions (oneFile scenarioFile) nodeRuntime [[], [ok 0 200]]
      [ok 1 200]).report = some [{ urn := "car-1", messages := 1 }] ∧
    tally
      ((main scenarioOptions (oneFile scenarioFile) nodeRuntime [[], [ok 0 200]]
        [ok 1 200]).requests.map Request.urn)
      ([ok 0 200] ++ [ok 1 200]) "car-1" = 2 := by
  decide

/-- C5, as the code has it: when every line of the file is a valid record (the
file has no final newline) and no response received during the replay carries
an error, the replay
runs to completion and makes one dispatch per non-empty line; when the file
is such lines followed by a final newline, the non-empty lines are
dispatched, one dispatch each, and the trailing empty line then raises an
uncaught parse error: the process crashes and the final report is never
printed. -/
theorem main_completion (options : Options) (ctx : Context) (fs : FileSystem)
    (rt : Runtime) (gaps : List (List Response)) (late : List Response)
    (hopt : validate options = Except.ok ctx) (hok : errorFree gaps = true) :
    (∀ contents, fs ctx.raceDataFile = some contents →
      (split contents '\n').all (validRecord rt) = true →
      (main options fs rt gaps late).report ≠ none ∧
      (main options fs rt gaps late).requests.length
        = ((split contents '\n').filter (fun l => l != "")).length) ∧
    (∀ body, fs ctx.raceDataFile = some (body ++ "\n") →
      (split body '\n').all (validRecord rt) = true →
      (main options fs rt gaps late).status = Status.crashed ∧
      (main options fs rt gaps late).report = none ∧
      (main options fs rt gaps late).requests.length
        = ((split (body ++ "\n") '\n').filter (fun l => l != "")).length) := by
  constructor
  · intro contents hfile hv
    obtain ⟨r1, r2, _, _, _⟩ := replay_valid ctx rt (split contents '\n') gaps hv hok
    obtain ⟨_, _, f3, f4⟩ := handleResponses_frame late
      (replay ctx rt (split contents '\n').length gaps (loaded (split contents '\n')))
    rw [main_loaded options ctx fs rt gaps late contents hopt hfile, f3, f4, r1, r2,
      filter_valid rt _ (valid_lines rt _ hv).1]
    simp
  · intro body hfile hv
    obtain ⟨hv1, hv2⟩ := valid_lines rt (split body '\n') hv
    have hlen : (split (body ++ "\n") '\n').length = (split body '\n').length + 1 := by
      rw [split_trailing_newline]
      simp
    have hvalid : ∀ j, j < 0 + (split body '\n').length →
        ∃ line, (loaded (split (body ++ "\n") '\n')).lines[j]? = some line ∧
          validRecord rt line = true := by
      intro j hj
      obtain ⟨line, h1, h2⟩ := hv2 j hj
      refine ⟨line, ?_, h2⟩
      show (split (body ++ "\n") '\n')[j]? = some line
      rw [split_trailing_newline, List.getElem?_append_left (by omega)]
      exact h1
    obtain ⟨i1, i2, _⟩ := iterate_valid ctx rt (split body '\n').length gaps
      (loaded (split (body ++ "\n") '\n')) 0 (good_loaded ctx rt _)
      ((errorFree_iff gaps).mp hok) hvalid
    obtain ⟨hidx, hrun, hrep, hwf, hurn, _, _⟩ := i2
    have hgap : ∀ r ∈ (gaps.drop (split body '\n').length).headD [], r.err = false := by
      cases hd : gaps.drop (split body '\n').length with
      | nil => simp
      | cons g rest =>
        have hg : g ∈ gaps := List.mem_of_mem_drop (by rw [hd]; exact List.mem_cons_self g rest)
        exact (errorFree_iff gaps).mp hok g hg
    obtain ⟨f1, f2, f3, f4⟩ := handleResponses_frame
      ((gaps.drop (split body '\n').length).headD [])
      (iterate ctx rt (split body '\n').length gaps (loaded (split (body ++ "\n") '\n')))
    obtain ⟨o1, _, _, _⟩ := handleResponses_ok
      ((gaps.drop (split body '\n').length).headD [])
      (iterate ctx rt (split body '\n').length gaps (loaded (split (body ++ "\n") '\n')))
      hwf hrun hgap
    have hline : (List.foldl handleResponse
        (iterate ctx rt (split body '\n').length gaps (loaded (split (body ++ "\n") '\n')))
        ((gaps.drop (split body '\n').length).headD [])).lines[(List.foldl handleResponse
        (iterate ctx rt (split body '\n').length gaps (loaded (split (body ++ "\n") '\n')))
        ((gaps.drop (split body '\n').length).headD [])).index]? = some "" := by
      rw [f1, f2, i1, hidx]
      show (split (body ++ "\n") '\n')[0 + (split body '\n').length]? = some ""
      rw [split_trailing_newline]
      simp
    have hcrash := processLine_bad ctx rt _ "" o1 hline (Or.inl (by decide))
    have hstat : (iterate ctx rt (split (body ++ "\n") '\n').length gaps
        (loaded (split (body ++ "\n") '\n'))).status = Status.crashed := by
      rw [hlen, iterate_succ_last]
      simp only [iterate]
      rw [hcrash]
      rfl
    have hne : (iterate ctx rt (split (body ++ "\n") '\n').length gaps
        (loaded (split (body ++ "\n") '\n'))).status ≠ Status.running := by
      rw [hstat]
      simp
    have hfin : main options fs rt gaps late
        = iterate ctx rt (split (body ++ "\n") '\n').length gaps
            (loaded (split (body ++ "\n") '\n')) := by
      rw [main_loaded options ctx fs rt gaps late _ hopt hfile, replay,
        finalCallback_stopped _ hne, handleResponses_stopped late _ hne]
    have hreqs : (iterate ctx rt (split (body ++ "\n") '\n').length gaps
        (loaded (split (body ++ "\n") '\n'))).requests.length = (split body '\n').length := by
      rw [hlen, iterate_succ_last]
      simp only [iterate]
      rw [hcrash]
      show (List.foldl handleResponse _ _).requests.length = _
      rw [f3]
      have := congrArg List.length hurn
      rw [i1] at this
      simp only [List.length_map, List.length_take] at this
      rw [this]
      show min (0 + (split body '\n').length) (split (body ++ "\n") '\n').length = _
      omega
    have hrep2 : (iterate ctx rt (split (body ++ "\n") '\n').length gaps
        (loaded (split (body ++ "\n") '\n'))).report = none := by
      rw [hlen, iterate_succ_last]
      simp only [iterate]
      rw [hcrash]
      show (List.foldl handleResponse _ _).report = _
      rw [f4, hrep]
    rw [hfin]
    refine ⟨hstat, hrep2, ?_⟩
    rw [hreqs, split_trailing_newline, List.filter_append, filter_valid rt _ hv1]
    simp

/-- Witness for C5: the scenario's file as it is, and with a final newline. -/
theorem main_completion_witness :
    ((main scenarioOptions (oneFile scenarioFile) nodeRuntime [[], [ok 0 200]] []).report
      ≠ none ∧
    (main scenarioOptions (oneFile scenarioFile) nodeRuntime [[], [ok 0 200]] []).requests.length
      = ((split scenarioFile '\n').filter (fun l => l != "")).length) ∧
    ((main scenarioOptions (oneFile (scenarioFile ++ "\n")) nodeRuntime [[], [ok 0 200]]
      []).status = Status.crashed ∧
    (main scenarioOptions (oneFile (scenarioFile ++ "\n")) nodeRuntime [[], [ok 0 200]]
      []).report = none ∧
    (main scenarioOptions (oneFile (scenarioFile ++ "\n")) nodeRuntime [[], [ok 0 200]]
      []).requests.length
      = ((split (scenarioFile ++ "\n") '\n').filter (fun l => l != "")).length) :=
  ⟨(main_completion scenarioOptions scenarioContext (oneFile scenarioFile) nodeRuntime
      [[], [ok 0 200]] [] rfl (by decide)).1 scenarioFile rfl (by decide),
   (main_completion scenarioOptions scenarioContext (oneFile (scenarioFile ++ "\n")) nodeRuntime
      [[], [ok 0 200]] [] rfl (by decide)).2 scenarioFile rfl (by decide)⟩

/-- C5 as stated fails: a race file of one valid record that ends with a final
newline does not run to completion; after the one dispatch the empty last
line makes `JSON.parse` throw, the process crashes and no report is printed. -/
theorem trailing_newline_crashes :
    ((split "10:00:00;data;car-1;\x7b\"speed\":80\x7d\n" '\n').filter
      (fun l => l != "")).all (validRecord nodeRuntime) = true ∧
    (main scenarioOptions (oneFile "10:00:00;data;car-1;\x7b\"speed\":80\x7d\n") nodeRuntime
      [] []).status = Status.crashed ∧
    (main scenarioOptions (oneFile "10:00:00;data;car-1;\x7b\"speed\":80\x7d\n") nodeRuntime
      [] []).report = none ∧
    exitCode (main scenarioOptions (oneFile "10:00:00;data;car-1;\x7b\"speed\":80\x7d\n")
      nodeRuntime [] []) ≠ 0 := by
  decide

/-- A record whose target id has a space is not a valid record: `client.post`
throws on its path after the counter lookup, nothing is sent and no report is
printed. -/
theorem rejected_path_crashes :
    validRecord nodeRuntime "10:00:00;data;car 1;\x7b\"a\":1\x7d" = false ∧
    (main scenarioOptions (oneFile "10:00:00;data;car 1;\x7b\"a\":1\x7d") nodeRuntime
      [] []).status = Status.crashed ∧
    (main scenarioOptions (oneFile "10:00:00;data;car 1;\x7b\"a\":1\x7d") nodeRuntime
      [] []).report = none ∧
    (main scenarioOptions (oneFile "10:00:00;data;car 1;\x7b\"a\":1\x7d") nodeRuntime
      [] []).requests.length = 0 ∧
    (main scenarioOptions (oneFile "10:00:00;data;car 1;\x7b\"a\":1\x7d") nodeRuntime
      [] []).counter = [{ urn := "car 1", messages := 0 }] := by
  decide

end RaceSimulator
